import Mathlib

/-!
Verification of the spreadsheet-ingestion pipeline of the hcm-finance
repository: a shallow embedding in Lean 4 of the services named in the
claims (circuit breaker, rate limiter, sync cache, sync queue worker,
sheet ingestion, sanitizer, anomaly engine, staging approval, unlock
sweep), with theorems settling each claim.

Modelling conventions:
- JavaScript strings that may be undefined are modelled as String with the
  empty string standing for undefined; every use site in the embedded code
  treats the two identically (falsy checks, the or-empty idiom, trim).
- Content digests (md5 and sha256 over the JSON encoding of a row range)
  are modelled as the raw content itself: the code only ever compares
  digests for equality, and the encoding is injective up to hash
  collisions, which are assumed absent.
- parseFloat is modelled on the grammar sign digits [dot digits], taken as
  the longest valid numeric prefix of the trimmed input, returning none
  for NaN. Exponents and Infinity are not modelled; no claim depends on
  them. Date parsing is modelled on strict ISO dates (YYYY-MM-DD): claims
  use only validity of concrete date strings.
- The shared key-value store (per-sheet circuit hash, per-window quota
  counter, per-tab sync digest) is modelled as explicit state threaded
  through the operations; expiry timers are not modelled except where a
  claim mentions them.
-/

namespace JsModel

def digitToNat (c : Char) : Nat := c.toNat - '0'.toNat

def natOfDigits (l : List Char) : Nat :=
  l.foldl (fun a c => a * 10 + digitToNat c) 0

/-- Model of the JavaScript trim method, dropping whitespace at both ends.
    Defined over the character list so that it reduces inside the kernel
    (the builtin trim walks substrings by byte position and does not). -/
def jsTrim (s : String) : String :=
  String.mk (((s.data.dropWhile Char.isWhitespace).reverse.dropWhile Char.isWhitespace).reverse)

/-- Model of toLowerCase over the character list. -/
def jsToLower (s : String) : String := String.mk (s.data.map Char.toLower)

/-- Model of JavaScript parseFloat: optional sign, then the longest prefix
    of digits, optionally a dot and more digits. Returns none when the
    trimmed input has no leading numeric part, modelling NaN. -/
def parseFloatM (raw : String) : Option Rat :=
  let l := (jsTrim raw).data
  let sign : Rat := match l with
    | '-' :: _ => -1
    | _ => 1
  let l2 := match l with
    | '-' :: rest => rest
    | '+' :: rest => rest
    | _ => l
  let intDigits := l2.takeWhile Char.isDigit
  let rest := l2.dropWhile Char.isDigit
  let fracDigits := match rest with
    | '.' :: r => r.takeWhile Char.isDigit
    | _ => []
  if intDigits.isEmpty ∧ fracDigits.isEmpty then none
  else
    some (sign * ((natOfDigits intDigits : Rat) +
      (natOfDigits fracDigits : Rat) / ((10 : Rat) ^ fracDigits.length)))

/-- Model of the regex replace deleting every dollar, comma and yen sign,
    as applied to the raw amount cell before parseFloat. -/
def stripCurrency (s : String) : String :=
  String.mk (s.data.filter (fun c => !(c = '$' ∨ c = ',' ∨ c = '¥')))

/-- Model of the validity test new Date(dateStr) followed by an isNaN
    check, restricted to strict ISO dates; returns year, month, day. -/
def parseDateM (s : String) : Option (Nat × Nat × Nat) :=
  match s.data with
  | [y1, y2, y3, y4, '-', m1, m2, '-', d1, d2] =>
    if ([y1, y2, y3, y4, m1, m2, d1, d2].all Char.isDigit) then
      let y := natOfDigits [y1, y2, y3, y4]
      let m := natOfDigits [m1, m2]
      let d := natOfDigits [d1, d2]
      if 1 ≤ m ∧ m ≤ 12 ∧ 1 ≤ d ∧ d ≤ 31 then some (y, m, d) else none
    else none
  | _ => none

/-- Infix test on character lists, modelling the includes method. -/
def listHasInfix (pat : List Char) : List Char → Bool
  | [] => pat.isEmpty
  | c :: rest => pat.isPrefixOf (c :: rest) || listHasInfix pat rest

/-- Model of the JavaScript includes test on strings. -/
def strIncludes (s pat : String) : Bool := listHasInfix pat.data s.data

end JsModel

namespace Sanitizer

/-- Characters that trigger formula execution in spreadsheet apps;
    FORMULA_PREFIXES in SanitizerService. -/
def formulaLeadChars : List Char := ['=', '+', '-', '@', '\t', '\r', '\n']

def startsWithFormulaChar (s : String) : Bool :=
  match s.data with
  | [] => false
  | c :: _ => formulaLeadChars.contains c

/-- The while loop of sanitizeString: while the string starts with a
    formula character, drop that character and trim. Fuel-indexed; each
    iteration strictly shortens the string, so fuel equal to the length
    plus one runs the loop to completion. -/
def stripLoop : Nat → String → String
  | 0, s => s
  | fuel + 1, s =>
    if startsWithFormulaChar s then stripLoop fuel (JsModel.jsTrim (String.mk (s.data.drop 1)))
    else s

/-- DDE patterns of SanitizerService, lowered for the case-insensitive
    anchored-regex test. -/
def ddePatterns : List String :=
  ["=cmd|", "=hyperlink(", "=importxml(", "=importdata(", "=importfeed(",
   "=importhtml(", "=importrange(", "=image("]

/-- One anchored case-insensitive pattern test and replace of the matched
    leading portion with the BLOCKED tag. -/
def applyDde (s : String) (p : String) : String :=
  if p.data.isPrefixOf (JsModel.jsToLower s).data then
    "[BLOCKED]" ++ String.mk (s.data.drop p.data.length)
  else s

def ddeScrub (s : String) : String := ddePatterns.foldl applyDde s

/-- SanitizerService.sanitizeString: empty for falsy input, else trim,
    strip leading formula characters in a loop, then scrub DDE patterns. -/
def sanitizeString (input : String) : String :=
  if input = "" then ""
  else ddeScrub (stripLoop (input.data.length + 1) (JsModel.jsTrim input))

end Sanitizer

namespace CircuitBreaker

/-- Contents of the per-sheet circuit hash in the shared store. The hash
    key may be absent (never written, deleted by recordSuccess or
    resetCircuit, or expired); absence is modelled as none at use sites.
    The lastError and timestamp fields are not modelled; no claim reads
    them. -/
structure CBState where
  failures : Nat
  isOpen : Bool
  deriving Repr, DecidableEq

def FAILURE_THRESHOLD : Nat := 5

/-- CircuitBreakerService.isCircuitOpen: the state field equals OPEN; an
    absent key reads as closed. -/
def isCircuitOpen (st : Option CBState) : Bool :=
  match st with
  | none => false
  | some s => s.isOpen

/-- CircuitBreakerService.recordFailure: increment the failures field
    (creating the hash when absent), and if the new count is at least the
    threshold set the state field to OPEN and return true, else return
    false. -/
def recordFailure (st : Option CBState) : Bool × CBState :=
  let failures := (match st with | none => 0 | some s => s.failures) + 1
  if FAILURE_THRESHOLD ≤ failures then
    (true, { failures := failures, isOpen := true })
  else
    (false, { failures := failures, isOpen := isCircuitOpen st })

/-- CircuitBreakerService.recordSuccess: delete the key. -/
def recordSuccess (_st : Option CBState) : Option CBState := none

/-- State after n consecutive recordFailure calls starting from an absent
    key. -/
def afterFailures : Nat → Option CBState
  | 0 => none
  | n + 1 => some (recordFailure (afterFailures n)).2

end CircuitBreaker

/-- Claim C5: recordFailure increments the consecutive-failure count and
    opens the circuit exactly on the fifth failure, and is claimed to
    return true if and only if the call itself caused the closed-to-open
    transition, so that the sixth and later failures return false;
    recordSuccess clears both. Evaluating the embedded code at the failing
    input: after five consecutive failures the circuit is already open,
    the failure count is five, recordSuccess would clear everything, yet
    the sixth recordFailure call still returns true (the code returns
    true whenever the incremented count is at least the threshold, which
    contradicts the claim and the in-source doc comment that it returns
    true only when the circuit just tripped). -/
theorem CircuitBreaker.recordFailure_sixth_call_returns_true :
    CircuitBreaker.isCircuitOpen (CircuitBreaker.afterFailures 4) = false ∧
    (CircuitBreaker.recordFailure (CircuitBreaker.afterFailures 4)).1 = true ∧
    CircuitBreaker.isCircuitOpen (CircuitBreaker.afterFailures 5) = true ∧
    (CircuitBreaker.afterFailures 5).map CircuitBreaker.CBState.failures = some 5 ∧
    (CircuitBreaker.recordFailure (CircuitBreaker.afterFailures 5)).1 = true ∧
    CircuitBreaker.recordSuccess (CircuitBreaker.afterFailures 5) = none := by
  decide

namespace RateLimiter

def MAX_REQUESTS_PER_MINUTE : Nat := 60
def WINDOW_SECONDS : Nat := 60

/-- Start of the fixed window containing second t; the window key suffix
    now minus now modulo sixty of RateLimiterService. -/
def windowOf (t : Nat) : Nat := t - t % WINDOW_SECONDS

/-- Per-window request counters in the shared store, keyed by window
    start. The TTL set on first increment outlives the window and is not
    modelled. -/
structure QuotaState where
  counters : List (Nat × Nat)
  deriving Repr, DecidableEq

def emptyQuota : QuotaState := ⟨[]⟩

def getCount (st : QuotaState) (w : Nat) : Nat :=
  match st.counters.find? (fun e => decide (e.1 = w)) with
  | some e => e.2
  | none => 0

def setCount (st : QuotaState) (w c : Nat) : QuotaState :=
  ⟨(w, c) :: st.counters.filter (fun e => !decide (e.1 = w))⟩

/-- RateLimiterService.acquireToken at second t: INCR the counter of the
    current window and report whether the incremented count is within the
    budget. -/
def acquireToken (st : QuotaState) (t : Nat) : Bool × QuotaState :=
  let w := windowOf t
  let c := getCount st w + 1
  (decide (c ≤ MAX_REQUESTS_PER_MINUTE), setCount st w c)

structure CallEvent where
  arrival : Nat
  granted : Bool
  proceedAt : Nat
  deriving Repr, DecidableEq

/-- One caller entering executeWithBackoff at the given second, modelled up
    to the point where the wrapped operation first runs: acquire a token;
    when denied, wait until the window rollover (waitForRateLimit) and then
    proceed without re-acquiring. The retry-on-429 loop below that point
    never denies or errors a caller for local quota reasons. -/
def callOnce (st : QuotaState) (t : Nat) : CallEvent × QuotaState :=
  let r := acquireToken st t
  (⟨t, r.1, if r.1 then t else windowOf t + WINDOW_SECONDS⟩, r.2)

/-- A serialized trace of callers arriving at the given seconds; all store
    increments serialize, so any concurrent execution corresponds to some
    arrival list. -/
def runTrace (st : QuotaState) : List Nat → List CallEvent × QuotaState
  | [] => ([], st)
  | t :: ts =>
    let r := callOnce st t
    let rs := runTrace r.2 ts
    (r.1 :: rs.1, rs.2)

/-- Number of calls of a trace whose external request executes inside the
    fixed window starting at w. -/
def proceedsInWindow (es : List CallEvent) (w : Nat) : Nat :=
  es.countP (fun e => decide (windowOf e.proceedAt = w))

/-- Number of calls granted a token for the window starting at w. -/
def grantedInWindow (es : List CallEvent) (w : Nat) : Nat :=
  es.countP (fun e => e.granted && decide (windowOf e.arrival = w))

theorem getCount_setCount_self (st : QuotaState) (w c : Nat) :
    getCount (setCount st w c) w = c := by
  simp [getCount, setCount]

theorem find?_filter_ne (l : List (Nat × Nat)) (w w' : Nat) (h : w' ≠ w) :
    (l.filter (fun e => !decide (e.1 = w))).find? (fun e => decide (e.1 = w'))
      = l.find? (fun e => decide (e.1 = w')) := by
  induction l with
  | nil => rfl
  | cons a l ih =>
    by_cases ha : a.1 = w
    · have h1 : (decide (a.1 = w')) = false := by
        apply decide_eq_false
        intro hh
        apply h
        rw [← hh, ha]
      have h2 : (decide (a.1 = w)) = true := decide_eq_true ha
      simp [List.filter_cons, List.find?_cons, h2, h1, ih]
    · have h2 : (decide (a.1 = w)) = false := decide_eq_false ha
      by_cases ha' : a.1 = w'
      · have h1 : (decide (a.1 = w')) = true := decide_eq_true ha'
        simp [List.filter_cons, List.find?_cons, h2, h1]
      · have h1 : (decide (a.1 = w')) = false := decide_eq_false ha'
        simp [List.filter_cons, List.find?_cons, h2, h1, ih]

theorem getCount_setCount_ne (st : QuotaState) (w c w' : Nat) (h : w' ≠ w) :
    getCount (setCount st w c) w' = getCount st w' := by
  have hw : (decide ((w, c).1 = w')) = false := by
    apply decide_eq_false
    intro hh
    exact h (by rw [← hh])
  simp only [getCount, setCount, List.find?_cons, hw]
  rw [find?_filter_ne st.counters w w' h]

/-- Token grants for one window are bounded by the remaining budget of
    that window. -/
theorem grantedInWindow_bound (ts : List Nat) (st : QuotaState) (w : Nat) :
    grantedInWindow (runTrace st ts).1 w + min (getCount st w) MAX_REQUESTS_PER_MINUTE
      ≤ MAX_REQUESTS_PER_MINUTE := by
  induction ts generalizing st with
  | nil =>
    have h0 : grantedInWindow (runTrace st []).1 w = 0 := rfl
    rw [h0]
    have := Nat.min_le_right (getCount st w) MAX_REQUESTS_PER_MINUTE
    omega
  | cons t ts ih =>
    have hgr : (callOnce st t).1.granted
        = decide (getCount st (windowOf t) + 1 ≤ MAX_REQUESTS_PER_MINUTE) := rfl
    have harr : (callOnce st t).1.arrival = t := rfl
    have hst2 : (callOnce st t).2
        = setCount st (windowOf t) (getCount st (windowOf t) + 1) := rfl
    have hcp : grantedInWindow (runTrace st (t :: ts)).1 w
        = grantedInWindow (runTrace (callOnce st t).2 ts).1 w
          + (if ((callOnce st t).1.granted
                && decide (windowOf (callOnce st t).1.arrival = w)) = true then 1 else 0) :=
      List.countP_cons _ _ _
    rw [hcp, hgr, harr, hst2]
    have hIH := ih (setCount st (windowOf t) (getCount st (windowOf t) + 1))
    by_cases hw : windowOf t = w
    · subst hw
      rw [getCount_setCount_self] at hIH
      by_cases hok : getCount st (windowOf t) + 1 ≤ MAX_REQUESTS_PER_MINUTE
      · rw [Nat.min_eq_left hok] at hIH
        have hdec : (decide (getCount st (windowOf t) + 1 ≤ MAX_REQUESTS_PER_MINUTE)
            && decide (windowOf t = windowOf t)) = true := by
          simp [hok]
        rw [hdec]
        have hmin2 : min (getCount st (windowOf t)) MAX_REQUESTS_PER_MINUTE
            = getCount st (windowOf t) := Nat.min_eq_left (Nat.le_of_succ_le hok)
        rw [hmin2]
        simp only [if_true]
        omega
      · rw [Nat.min_eq_right (by omega)] at hIH
        have hdec : (decide (getCount st (windowOf t) + 1 ≤ MAX_REQUESTS_PER_MINUTE)
            && decide (windowOf t = windowOf t)) = false := by
          simp [hok]
        rw [hdec]
        have hmin2 : min (getCount st (windowOf t)) MAX_REQUESTS_PER_MINUTE
            = MAX_REQUESTS_PER_MINUTE := Nat.min_eq_right (by omega)
        rw [hmin2]
        simp only [Bool.false_eq_true, if_false]
        omega
    · rw [getCount_setCount_ne st (windowOf t) (getCount st (windowOf t) + 1) w
        (fun hh => hw hh.symm)] at hIH
      have hdec : (decide (getCount st (windowOf t) + 1 ≤ MAX_REQUESTS_PER_MINUTE)
          && decide (windowOf t = w)) = false := by
        simp [hw]
      rw [hdec]
      simp only [Bool.false_eq_true, if_false]
      omega

end RateLimiter

/-- Claim C4, counterexample: sixty-one callers arrive in the window
    starting at second zero; sixty are granted and proceed at once, the
    sixty-first finds the window exhausted, waits for the rollover at
    second sixty and proceeds there without consuming a token of the new
    window. Sixty further callers arrive at second sixty and are all
    granted. Sixty-one external calls therefore execute inside the fixed
    window starting at second sixty, refuting the claim that at most sixty
    calls proceed within every fixed window. -/
theorem RateLimiter.sixtyone_calls_in_one_window :
    RateLimiter.proceedsInWindow
      (RateLimiter.runTrace RateLimiter.emptyQuota
        (List.replicate 61 0 ++ List.replicate 60 60)).1 60 = 61 := by
  decide

/-- Claim C4, amended: at most sixty callers are granted a token for any
    fixed window, and a caller that finds the window exhausted waits for
    the window rollover and then proceeds, never receiving an error for
    local quota exhaustion; however a denied caller proceeds in the next
    window without consuming that window of budget, so the number of
    external calls executing inside one fixed window can exceed the
    budget. -/
theorem RateLimiter.quota_granted_bound_and_waiters_proceed
    (ts : List Nat) (w : Nat) :
    RateLimiter.grantedInWindow (RateLimiter.runTrace RateLimiter.emptyQuota ts).1 w
      ≤ RateLimiter.MAX_REQUESTS_PER_MINUTE
    ∧ ∀ e ∈ (RateLimiter.runTrace RateLimiter.emptyQuota ts).1,
        (e.granted = true → e.proceedAt = e.arrival)
      ∧ (e.granted = false →
          e.proceedAt = RateLimiter.windowOf e.arrival + RateLimiter.WINDOW_SECONDS) := by
  constructor
  · have h := RateLimiter.grantedInWindow_bound ts RateLimiter.emptyQuota w
    have h0 : RateLimiter.getCount RateLimiter.emptyQuota w = 0 := rfl
    rw [h0] at h
    simpa using h
  · have main : ∀ (l : List Nat) (st : RateLimiter.QuotaState),
        ∀ e ∈ (RateLimiter.runTrace st l).1,
          (e.granted = true → e.proceedAt = e.arrival)
        ∧ (e.granted = false →
            e.proceedAt = RateLimiter.windowOf e.arrival + RateLimiter.WINDOW_SECONDS) := by
      intro l
      induction l with
      | nil => intro st e he; simp [RateLimiter.runTrace] at he
      | cons t l ih =>
        intro st e he
        simp only [RateLimiter.runTrace, List.mem_cons] at he
        rcases he with he | he
        · subst he
          constructor
          · intro hg
            simp only [RateLimiter.callOnce] at hg ⊢
            simp [hg]
          · intro hg
            simp only [RateLimiter.callOnce] at hg ⊢
            simp [hg]
        · exact ih _ e he
    exact main ts RateLimiter.emptyQuota

namespace Ingestion

/-- Status enum of a staging transaction. -/
inductive StagingStatus
  | PENDING
  | APPROVED
  | REJECTED
  deriving Repr, DecidableEq

/-- One fetched sheet row, columns A through G of the tab range. Cells a
    row does not have destructure to undefined in the source; that is
    modelled as the empty string (see the file header). -/
structure Row where
  dateStr : String
  description : String
  category : String
  amountStr : String
  receiptUrl : String
  statusCell : String
  uuid : String
  deriving Repr, DecidableEq

/-- A StagingTransaction record. The raw-data digest is modelled as the
    row content itself; the thumbnail URL is dropped (no claim reads it).
    The sheetTabName column is set by the fresh-row create only — the
    orphan re-create in the source omits it, hence the Option. -/
structure StagingRecord where
  id : Nat
  externalSheetId : String
  sheetRowIndex : Nat
  sheetTabName : Option String
  amount : Option Rat
  description : String
  category : String
  date : Nat × Nat × Nat
  receiptUrl : String
  isMissingReceipt : Bool
  syncUuid : String
  rawDataHash : Row
  status : StagingStatus
  note : String
  deriving Repr, DecidableEq

/-- ReceiptPreservationService.checkCompliance: a receipt is missing when
    the amount exceeds the threshold of five thousand and the receipt link
    is blank. A NaN amount compares false. -/
def checkCompliance (amount : Option Rat) (receiptLink : String) : Bool :=
  match amount with
  | none => false
  | some a => decide (5000 < a) && decide (JsModel.jsTrim receiptLink = "")

/-- In-sheet write-back produced by one reconciliation pass: one value
    into column F (status marker) or G (stable identifier) of a row. -/
inductive SheetCol
  | F
  | G
  deriving Repr, DecidableEq

structure BatchUpdate where
  tab : String
  col : SheetCol
  rowIndex : Nat
  value : String
  deriving Repr, DecidableEq

/-- Relational store fragment touched by the engine, plus the id and
    stable-identifier supplies. Fresh identifiers come from an ambient
    supply function applied to successive indices, modelling uuidv4. -/
structure Db where
  records : List StagingRecord
  nextRecId : Nat
  nextUuidIdx : Nat
  deriving Repr, DecidableEq

def findByUuid (records : List StagingRecord) (key : String) : Option StagingRecord :=
  records.find? (fun r => decide (r.syncUuid = key))

/-- Accumulator for one tab pass: the store plus the per-tab batch update
    list, counters and the anomaly scans issued (record id and raw amount
    string). -/
structure TabAcc where
  db : Db
  batchUpdates : List BatchUpdate
  newRows : Nat
  updatedRows : Nat
  scans : List (Nat × String)
  deriving Repr, DecidableEq

/-- Parsed amount of a row: parseFloat of the currency-stripped trimmed
    amount cell. -/
def cleanAmountOf (row : Row) : Option Rat :=
  JsModel.parseFloatM (JsModel.jsTrim (JsModel.stripCurrency row.amountStr))

/-- Receipt URL as stored: the archival result for a drive link (or the
    original URL when archival fails, both covered by the ambient archive
    function), the raw cell otherwise. -/
def finalReceiptUrlOf (archive : String → String) (row : Row) : String :=
  if (!decide (row.receiptUrl = "") && JsModel.strIncludes row.receiptUrl "drive.google.com") then
    archive row.receiptUrl
  else row.receiptUrl

def missingOf (row : Row) : Bool := checkCompliance (cleanAmountOf row) row.receiptUrl

/-- The record created by the fresh-row branch: sanitized free text, fresh
    stable identifier, PENDING. -/
def createdRecord (fresh : Nat → String) (archive : String → String) (sheetId tab : String)
    (rowIndex : Nat) (row : Row) (db : Db) (date : Nat × Nat × Nat) : StagingRecord :=
  { id := db.nextRecId
    externalSheetId := sheetId
    sheetRowIndex := rowIndex
    sheetTabName := some tab
    amount := cleanAmountOf row
    description := Sanitizer.sanitizeString row.description
    category := Sanitizer.sanitizeString row.category
    date := date
    receiptUrl := finalReceiptUrlOf archive row
    isMissingReceipt := missingOf row
    syncUuid := fresh db.nextUuidIdx
    rawDataHash := row
    status := StagingStatus.PENDING
    note := "" }

/-- The record re-created by the orphan branch: raw free text, the stable
    identifier already borne by the row, no tab name, PENDING. -/
def orphanRecord (archive : String → String) (sheetId : String)
    (rowIndex : Nat) (row : Row) (db : Db) (date : Nat × Nat × Nat) : StagingRecord :=
  { id := db.nextRecId
    externalSheetId := sheetId
    sheetRowIndex := rowIndex
    sheetTabName := none
    amount := cleanAmountOf row
    description := row.description
    category := row.category
    date := date
    receiptUrl := finalReceiptUrlOf archive row
    isMissingReceipt := missingOf row
    syncUuid := row.uuid
    rawDataHash := row
    status := StagingStatus.PENDING
    note := "" }

/-- Field update applied by the known-identifier PENDING branch: raw free
    text, refreshed digest and position; status, identifier, tab name and
    note untouched. -/
def updatedFields (archive : String → String) (rowIndex : Nat) (row : Row)
    (date : Nat × Nat × Nat) (r : StagingRecord) : StagingRecord :=
  { r with
    amount := cleanAmountOf row
    description := row.description
    category := row.category
    date := date
    receiptUrl := finalReceiptUrlOf archive row
    isMissingReceipt := missingOf row
    rawDataHash := row
    sheetRowIndex := rowIndex }

/-- One iteration of the row loop of SheetIngestionService.processSheet.
    The fresh argument supplies stable identifiers (uuidv4), archive gives
    the stored receipt URL for a drive link (the archival call, or the
    original URL when archival fails). -/
def processRow (fresh : Nat → String) (archive : String → String)
    (sheetId tab : String) (rowIndex : Nat) (row : Row) (acc : TabAcc) : TabAcc :=
  if JsModel.jsTrim row.amountStr = "" then acc
  else
    match JsModel.parseDateM row.dateStr with
    | none =>
      { acc with batchUpdates := acc.batchUpdates ++ [⟨tab, SheetCol.F, rowIndex, "INVALID DATE"⟩] }
    | some date =>
      if JsModel.jsTrim row.uuid = "" then
        let newRec := createdRecord fresh archive sheetId tab rowIndex row acc.db date
        { db := { records := acc.db.records ++ [newRec]
                  nextRecId := acc.db.nextRecId + 1
                  nextUuidIdx := acc.db.nextUuidIdx + 1 }
          batchUpdates := acc.batchUpdates
            ++ [⟨tab, SheetCol.G, rowIndex, newRec.syncUuid⟩, ⟨tab, SheetCol.F, rowIndex, "STAGED"⟩]
          newRows := acc.newRows + 1
          updatedRows := acc.updatedRows
          scans := acc.scans ++ [(newRec.id, row.amountStr)] }
      else
        match findByUuid acc.db.records row.uuid with
        | some existing =>
          if existing.status = StagingStatus.APPROVED then
            if existing.rawDataHash ≠ row then
              { acc with batchUpdates := acc.batchUpdates ++ [⟨tab, SheetCol.F, rowIndex, "CONFLICT"⟩] }
            else acc
          else
            { acc with
              db := { acc.db with
                records := acc.db.records.map (fun r =>
                  if r.syncUuid = row.uuid then updatedFields archive rowIndex row date r else r) }
              updatedRows := acc.updatedRows + 1
              scans := acc.scans ++ [(existing.id, row.amountStr)] }
        | none =>
          let orphanRec := orphanRecord archive sheetId rowIndex row acc.db date
          { db := { records := acc.db.records ++ [orphanRec]
                    nextRecId := acc.db.nextRecId + 1
                    nextUuidIdx := acc.db.nextUuidIdx }
            batchUpdates := acc.batchUpdates
            newRows := acc.newRows + 1
            updatedRows := acc.updatedRows
            scans := acc.scans ++ [(orphanRec.id, row.amountStr)] }

/-- Branch lemma: a blank amount is skipped with no effect at all. -/
theorem processRow_blank (fresh : Nat → String) (archive : String → String)
    (sheetId tab : String) (rowIndex : Nat) (row : Row) (acc : TabAcc)
    (h : JsModel.jsTrim row.amountStr = "") :
    processRow fresh archive sheetId tab rowIndex row acc = acc := by
  simp [processRow, h]

/-- Branch lemma: an unparsable date writes the INVALID DATE marker and
    otherwise skips the row. -/
theorem processRow_bad_date (fresh : Nat → String) (archive : String → String)
    (sheetId tab : String) (rowIndex : Nat) (row : Row) (acc : TabAcc)
    (h1 : ¬JsModel.jsTrim row.amountStr = "")
    (h2 : JsModel.parseDateM row.dateStr = none) :
    processRow fresh archive sheetId tab rowIndex row acc
      = { acc with batchUpdates := acc.batchUpdates
          ++ [⟨tab, SheetCol.F, rowIndex, "INVALID DATE"⟩] } := by
  simp [processRow, h1, h2]

/-- Branch lemma: a valid row with a blank identifier creates one record
    and queues the identifier and STAGED write-backs. -/
theorem processRow_create (fresh : Nat → String) (archive : String → String)
    (sheetId tab : String) (rowIndex : Nat) (row : Row) (acc : TabAcc)
    (date : Nat × Nat × Nat)
    (h1 : ¬JsModel.jsTrim row.amountStr = "")
    (h2 : JsModel.parseDateM row.dateStr = some date)
    (h3 : JsModel.jsTrim row.uuid = "") :
    processRow fresh archive sheetId tab rowIndex row acc
      = { db :=
            { records :=
                acc.db.records
                  ++ [createdRecord fresh archive sheetId tab rowIndex row acc.db date],
              nextRecId := acc.db.nextRecId + 1,
              nextUuidIdx := acc.db.nextUuidIdx + 1 },
          batchUpdates :=
            acc.batchUpdates
              ++ [⟨tab, SheetCol.G, rowIndex,
                    (createdRecord fresh archive sheetId tab rowIndex row acc.db date).syncUuid⟩,
                  ⟨tab, SheetCol.F, rowIndex, "STAGED"⟩],
          newRows := acc.newRows + 1,
          updatedRows := acc.updatedRows,
          scans :=
            acc.scans
              ++ [((createdRecord fresh archive sheetId tab rowIndex row acc.db date).id,
                   row.amountStr)] } := by
  simp [processRow, h1, h2, h3]

/-- Branch lemma: a known identifier with a non-APPROVED record updates
    that record in place with the raw row text and creates nothing. -/
theorem processRow_update (fresh : Nat → String) (archive : String → String)
    (sheetId tab : String) (rowIndex : Nat) (row : Row) (acc : TabAcc)
    (date : Nat × Nat × Nat) (existing : StagingRecord)
    (h1 : ¬JsModel.jsTrim row.amountStr = "")
    (h2 : JsModel.parseDateM row.dateStr = some date)
    (h3 : ¬JsModel.jsTrim row.uuid = "")
    (h4 : findByUuid acc.db.records row.uuid = some existing)
    (h5 : ¬existing.status = StagingStatus.APPROVED) :
    processRow fresh archive sheetId tab rowIndex row acc
      = { acc with
          db := { acc.db with
            records := acc.db.records.map (fun r =>
              if r.syncUuid = row.uuid then updatedFields archive rowIndex row date r else r) }
          updatedRows := acc.updatedRows + 1
          scans := acc.scans ++ [(existing.id, row.amountStr)] } := by
  simp [processRow, h1, h2, h3, h4, h5]

/-- Branch lemma: a known identifier with no matching record re-creates
    the record with the raw row text, reusing the identifier, with no
    write-back. -/
theorem processRow_orphan (fresh : Nat → String) (archive : String → String)
    (sheetId tab : String) (rowIndex : Nat) (row : Row) (acc : TabAcc)
    (date : Nat × Nat × Nat)
    (h1 : ¬JsModel.jsTrim row.amountStr = "")
    (h2 : JsModel.parseDateM row.dateStr = some date)
    (h3 : ¬JsModel.jsTrim row.uuid = "")
    (h4 : findByUuid acc.db.records row.uuid = none) :
    processRow fresh archive sheetId tab rowIndex row acc
      = { db :=
            { records :=
                acc.db.records ++ [orphanRecord archive sheetId rowIndex row acc.db date],
              nextRecId := acc.db.nextRecId + 1,
              nextUuidIdx := acc.db.nextUuidIdx },
          batchUpdates := acc.batchUpdates,
          newRows := acc.newRows + 1,
          updatedRows := acc.updatedRows,
          scans :=
            acc.scans
              ++ [((orphanRecord archive sheetId rowIndex row acc.db date).id,
                   row.amountStr)] } := by
  simp [processRow, h1, h2, h3, h4]

/-- The row loop: row index starts at two (range A2:G). -/
def processRows (fresh : Nat → String) (archive : String → String)
    (sheetId tab : String) (rowIndex : Nat) (acc : TabAcc) : List Row → TabAcc
  | [] => acc
  | r :: rest =>
    processRows fresh archive sheetId tab (rowIndex + 1)
      (processRow fresh archive sheetId tab rowIndex r acc) rest

/-- SyncCacheService store: one digest per sheet and tab, the digest
    modelled as the fetched row range itself. -/
structure CacheStore where
  entries : List ((String × String) × List Row)
  deriving Repr, DecidableEq

def cacheLookup (c : CacheStore) (sheetId tab : String) : Option (List Row) :=
  match c.entries.find? (fun e => decide (e.1 = (sheetId, tab))) with
  | some e => some e.2
  | none => none

/-- SyncCacheService.hasChanged: fetched content differs from the stored
    digest (a missing entry always reads as changed). -/
def hasChanged (c : CacheStore) (sheetId tab : String) (rows : List Row) : Bool :=
  !decide (cacheLookup c sheetId tab = some rows)

/-- SyncCacheService.updateHash: store the digest of the fetched content
    (the 24h TTL is not modelled). -/
def updateHash (c : CacheStore) (sheetId tab : String) (rows : List Row) : CacheStore :=
  ⟨((sheetId, tab), rows) :: c.entries⟩

structure SheetState where
  db : Db
  cache : CacheStore
  deriving Repr, DecidableEq

/-- Report of one tab pass (skip flag, write-backs sent in the one batch
    call, counters, scans, and the velocity count handed to the anomaly
    engine). -/
structure TabReport where
  skipped : Bool
  batchUpdates : List BatchUpdate
  newRows : Nat
  updatedRows : Nat
  scans : List (Nat × String)
  velocityCount : Nat
  deriving Repr, DecidableEq

/-- One tab iteration of processSheet, after a successful fetch: the cache
    check (skip if unchanged), the row loop, the velocity check, the one
    batched write-back, then the cache commit. -/
def processTab (fresh : Nat → String) (archive : String → String)
    (sheetId : String) (st : SheetState) (tab : String) (rows : List Row) :
    SheetState × TabReport :=
  if !(hasChanged st.cache sheetId tab rows) then
    (st, ⟨true, [], 0, 0, [], 0⟩)
  else
    let acc := processRows fresh archive sheetId tab 2 ⟨st.db, [], 0, 0, []⟩ rows
    let cache2 := updateHash st.cache sheetId tab rows
    (⟨acc.db, cache2⟩,
     ⟨false, acc.batchUpdates, acc.newRows, acc.updatedRows, acc.scans,
      acc.newRows + acc.updatedRows⟩)

/-- Outcome of the rate-limited fetch of one tab range: the rows, or a
    thrown error. -/
inductive FetchResult
  | ok (rows : List Row)
  | err (msg : String)
  deriving Repr, DecidableEq

/-- The tab loop of processSheet: totals accumulate across tabs; a thrown
    error is re-thrown out of the loop, so it ends the whole sheet pass
    and the remaining tabs are not visited. Effects of tabs already
    processed persist. -/
def processTabs (fresh : Nat → String) (archive : String → String)
    (sheetId : String) (st : SheetState) (totals : Nat × Nat) :
    List (String × FetchResult) → SheetState × Except String (Nat × Nat)
  | [] => (st, Except.ok totals)
  | (_, FetchResult.err e) :: _ => (st, Except.error e)
  | (tab, FetchResult.ok rows) :: rest =>
    let r := processTab fresh archive sheetId st tab rows
    processTabs fresh archive sheetId r.1
      (totals.1 + r.2.newRows, totals.2 + r.2.updatedRows) rest

structure SyncJobResult where
  success : Bool
  newRows : Nat
  updatedRows : Nat
  skipped : Bool
  error : Option String
  deriving Repr, DecidableEq

/-- SheetIngestionService.processJob: runs processSheet and catches every
    exception, converting it into a failure result — it never re-throws. -/
def processJob (fresh : Nat → String) (archive : String → String)
    (sheetId : String) (st : SheetState) (fetches : List (String × FetchResult)) :
    SheetState × SyncJobResult :=
  match processTabs fresh archive sheetId st (0, 0) fetches with
  | (st2, Except.ok (n, u)) => (st2, ⟨true, n, u, false, none⟩)
  | (st2, Except.error e) => (st2, ⟨false, 0, 0, false, some e⟩)

/-- The BullMQ worker body of SyncQueueService.setProcessor: skip when the
    circuit is open; otherwise run the processor and record the outcome on
    the circuit breaker. Because processJob catches all of its errors and
    returns a result object, the catch branch that would call
    recordFailure is unreachable and the worker always records a
    success. -/
def workerStep (fresh : Nat → String) (archive : String → String)
    (sheetId : String) (breaker : Option CircuitBreaker.CBState)
    (st : SheetState) (fetches : List (String × FetchResult)) :
    Option CircuitBreaker.CBState × SheetState × SyncJobResult :=
  if CircuitBreaker.isCircuitOpen breaker then
    (breaker, st, ⟨false, 0, 0, true, some "Circuit breaker open"⟩)
  else
    let r := processJob fresh archive sheetId st fetches
    (CircuitBreaker.recordSuccess breaker, r.1, r.2)

end Ingestion

namespace Ingestion

/-- A thrown tab ends the pass: the tabs after the first error are never
    visited, so the outcome does not depend on them. -/
theorem processTabs_indep_of_err (fresh : Nat → String) (archive : String → String)
    (sheetId : String) (pre : List (String × FetchResult)) (t e : String)
    (rest : List (String × FetchResult)) (st : SheetState) (totals : Nat × Nat) :
    processTabs fresh archive sheetId st totals (pre ++ (t, FetchResult.err e) :: rest)
      = processTabs fresh archive sheetId st totals (pre ++ [(t, FetchResult.err e)]) := by
  induction pre generalizing st totals with
  | nil => rfl
  | cons p pre ih =>
    cases p with
    | mk tab fr =>
      cases fr with
      | err e2 => rfl
      | ok rows =>
        simp only [List.cons_append, processTabs]
        exact ih _ _

/-- A fetch list containing a thrown tab yields an error outcome. -/
theorem processTabs_err_result (fresh : Nat → String) (archive : String → String)
    (sheetId : String) (pre : List (String × FetchResult)) (t e : String)
    (rest : List (String × FetchResult)) (st : SheetState) (totals : Nat × Nat) :
    ∃ msg, (processTabs fresh archive sheetId st totals
      (pre ++ (t, FetchResult.err e) :: rest)).2 = Except.error msg := by
  induction pre generalizing st totals with
  | nil => exact ⟨e, rfl⟩
  | cons p pre ih =>
    cases p with
    | mk tab fr =>
      cases fr with
      | err e2 => exact ⟨e2, rfl⟩
      | ok rows =>
        simp only [List.cons_append, processTabs]
        exact ih _ _

/-- processJob converts an error outcome of the tab loop into a failure
    result instead of re-throwing. -/
theorem processJob_error_success_false (fresh : Nat → String) (archive : String → String)
    (sheetId : String) (st : SheetState) (l : List (String × FetchResult)) (msg : String)
    (h : (processTabs fresh archive sheetId st (0, 0) l).2 = Except.error msg) :
    (processJob fresh archive sheetId st l).2.success = false := by
  unfold processJob
  cases hpt : processTabs fresh archive sheetId st (0, 0) l with
  | mk st2 r =>
    rw [hpt] at h
    cases r with
    | ok v =>
      exact absurd h (by simp)
    | error e2 =>
      simp

end Ingestion

/-- Claim C3, amended: when processing one period of a sync job throws,
    the exception propagates out of the tab loop, so that period and every
    later period of the same job are abandoned (the outcome is the same as
    if the later periods were not in the list), the job reports failure —
    but the failure never reaches the Circuit Breaker: processJob catches
    the exception and returns a failure result, so the worker records a
    success, which deletes the consecutive-failure key for the sheet. -/
theorem Ingestion.period_error_aborts_job_and_never_reaches_breaker
    (fresh : Nat → String) (archive : String → String) (sheetId : String)
    (pre : List (String × Ingestion.FetchResult)) (t e : String)
    (rest : List (String × Ingestion.FetchResult)) (st : Ingestion.SheetState)
    (totals : Nat × Nat) (breaker : Option CircuitBreaker.CBState)
    (hbr : CircuitBreaker.isCircuitOpen breaker = false) :
    Ingestion.processTabs fresh archive sheetId st totals
        (pre ++ (t, Ingestion.FetchResult.err e) :: rest)
      = Ingestion.processTabs fresh archive sheetId st totals
        (pre ++ [(t, Ingestion.FetchResult.err e)])
    ∧ (∃ msg, (Ingestion.processTabs fresh archive sheetId st totals
        (pre ++ (t, Ingestion.FetchResult.err e) :: rest)).2 = Except.error msg)
    ∧ (Ingestion.processJob fresh archive sheetId st
        (pre ++ (t, Ingestion.FetchResult.err e) :: rest)).2.success = false
    ∧ (Ingestion.workerStep fresh archive sheetId breaker st
        (pre ++ (t, Ingestion.FetchResult.err e) :: rest)).1 = none := by
  refine ⟨Ingestion.processTabs_indep_of_err fresh archive sheetId pre t e rest st totals,
    Ingestion.processTabs_err_result fresh archive sheetId pre t e rest st totals, ?_, ?_⟩
  · obtain ⟨msg, hmsg⟩ :=
      Ingestion.processTabs_err_result fresh archive sheetId pre t e rest st (0, 0)
    exact Ingestion.processJob_error_success_false fresh archive sheetId st _ msg hmsg
  · simp [Ingestion.workerStep, hbr, CircuitBreaker.recordSuccess]

/-- Witness for the amended claim C3 at a concrete job: previous-month tab
    throws, current-month tab holds one fresh row, circuit closed with
    three recorded failures. -/
theorem Ingestion.period_error_witness :
    CircuitBreaker.isCircuitOpen (some ⟨3, false⟩) = false ∧
    (Ingestion.workerStep (fun n => String.append "u" (toString n)) (fun s => s) "sheet1"
      (some ⟨3, false⟩) ⟨⟨[], 0, 0⟩, ⟨[]⟩⟩
      ([("Jan", Ingestion.FetchResult.err "boom")]
        ++ (("Feb", Ingestion.FetchResult.ok
          [⟨"2024-02-05", "Lunch", "Food", "1000", "", "", ""⟩]) :: []))).1 = none :=
  ⟨rfl, (Ingestion.period_error_aborts_job_and_never_reaches_breaker
    (fun n => String.append "u" (toString n)) (fun s => s) "sheet1"
    [] "Jan" "boom"
    [("Feb", Ingestion.FetchResult.ok [⟨"2024-02-05", "Lunch", "Food", "1000", "", "", ""⟩])]
    ⟨⟨[], 0, 0⟩, ⟨[]⟩⟩ (0, 0) (some ⟨3, false⟩) rfl).2.2.2⟩

/-- Claim C3, counterexample: a job whose first period throws and whose
    second period contains one stageable fresh row. The claim says the
    second period is still processed and the failure is recorded in the
    consecutive-failure count; in the code the staging store stays empty
    (the second period is never visited) and the worker deletes the
    breaker key (three prior failures do not become four — they become
    none). -/
theorem Ingestion.failed_first_tab_skips_second_and_clears_breaker :
    (Ingestion.workerStep (fun n => String.append "u" (toString n)) (fun s => s) "sheet1"
      (some ⟨3, false⟩) ⟨⟨[], 0, 0⟩, ⟨[]⟩⟩
      [("Jan", Ingestion.FetchResult.err "boom"),
       ("Feb", Ingestion.FetchResult.ok
         [⟨"2024-02-05", "Lunch", "Food", "1000", "", "", ""⟩])]).2.1.db.records = []
    ∧ (Ingestion.workerStep (fun n => String.append "u" (toString n)) (fun s => s) "sheet1"
      (some ⟨3, false⟩) ⟨⟨[], 0, 0⟩, ⟨[]⟩⟩
      [("Jan", Ingestion.FetchResult.err "boom"),
       ("Feb", Ingestion.FetchResult.ok
         [⟨"2024-02-05", "Lunch", "Food", "1000", "", "", ""⟩])]).1 = none
    ∧ (Ingestion.workerStep (fun n => String.append "u" (toString n)) (fun s => s) "sheet1"
      (some ⟨3, false⟩) ⟨⟨[], 0, 0⟩, ⟨[]⟩⟩
      [("Jan", Ingestion.FetchResult.err "boom"),
       ("Feb", Ingestion.FetchResult.ok
         [⟨"2024-02-05", "Lunch", "Food", "1000", "", "", ""⟩])]).2.2
      = ⟨false, 0, 0, false, some "boom"⟩ :=
  ⟨rfl, rfl, rfl⟩

/-- Witness for the amended claim C4 at a concrete trace of two callers. -/
theorem RateLimiter.quota_witness :
    RateLimiter.grantedInWindow (RateLimiter.runTrace RateLimiter.emptyQuota [0, 61]).1 0
      ≤ RateLimiter.MAX_REQUESTS_PER_MINUTE
    ∧ ((⟨0, true, 0⟩ : RateLimiter.CallEvent).granted = true →
        (⟨0, true, 0⟩ : RateLimiter.CallEvent).proceedAt
          = (⟨0, true, 0⟩ : RateLimiter.CallEvent).arrival) :=
  ⟨(RateLimiter.quota_granted_bound_and_waiters_proceed [0, 61] 0).1,
   ((RateLimiter.quota_granted_bound_and_waiters_proceed [0, 61] 0).2
     ⟨0, true, 0⟩ (by decide)).1⟩

/-- Claim C6, amended: an unparsable date receives the INVALID DATE marker
    and the row is skipped; a row with a blank amount is skipped silently —
    no in-sheet marker is written and no record is created; a non-blank
    amount that fails to parse to a number is not detected at all — the
    row proceeds with a NaN amount, and a fresh such row is staged as
    PENDING and receives the stable identifier and STAGED markers rather
    than any error marker. -/
theorem Ingestion.parse_failure_marker_behaviour
    (fresh : Nat → String) (archive : String → String) (sheetId tab : String)
    (rowIndex : Nat) (rowBlank rowBadDate rowBadAmt : Ingestion.Row)
    (acc1 acc2 acc3 : Ingestion.TabAcc) (d : Nat × Nat × Nat)
    (hb : JsModel.jsTrim rowBlank.amountStr = "")
    (hd1 : ¬JsModel.jsTrim rowBadDate.amountStr = "")
    (hd2 : JsModel.parseDateM rowBadDate.dateStr = none)
    (ha1 : ¬JsModel.jsTrim rowBadAmt.amountStr = "")
    (ha2 : JsModel.parseFloatM (JsModel.jsTrim (JsModel.stripCurrency rowBadAmt.amountStr)) = none)
    (ha3 : JsModel.parseDateM rowBadAmt.dateStr = some d)
    (ha4 : JsModel.jsTrim rowBadAmt.uuid = "") :
    Ingestion.processRow fresh archive sheetId tab rowIndex rowBlank acc1 = acc1
    ∧ Ingestion.processRow fresh archive sheetId tab rowIndex rowBadDate acc2
      = { acc2 with batchUpdates := acc2.batchUpdates
          ++ [⟨tab, Ingestion.SheetCol.F, rowIndex, "INVALID DATE"⟩] }
    ∧ (∃ r : Ingestion.StagingRecord,
        (Ingestion.processRow fresh archive sheetId tab rowIndex rowBadAmt acc3).db.records
          = acc3.db.records ++ [r]
        ∧ r.amount = none
        ∧ r.status = Ingestion.StagingStatus.PENDING
        ∧ r.syncUuid = fresh acc3.db.nextUuidIdx)
    ∧ (Ingestion.processRow fresh archive sheetId tab rowIndex rowBadAmt acc3).batchUpdates
      = acc3.batchUpdates
        ++ [⟨tab, Ingestion.SheetCol.G, rowIndex, fresh acc3.db.nextUuidIdx⟩,
            ⟨tab, Ingestion.SheetCol.F, rowIndex, "STAGED"⟩] := by
  refine ⟨?_, ?_, ?_, ?_⟩
  · exact Ingestion.processRow_blank fresh archive sheetId tab rowIndex rowBlank acc1 hb
  · exact Ingestion.processRow_bad_date fresh archive sheetId tab rowIndex rowBadDate acc2 hd1 hd2
  · refine ⟨Ingestion.createdRecord fresh archive sheetId tab rowIndex rowBadAmt acc3.db d,
      ?_, ?_, rfl, rfl⟩
    · rw [Ingestion.processRow_create fresh archive sheetId tab rowIndex rowBadAmt acc3 d
        ha1 ha3 ha4]
    · exact ha2
  · rw [Ingestion.processRow_create fresh archive sheetId tab rowIndex rowBadAmt acc3 d
      ha1 ha3 ha4]
    simp [Ingestion.createdRecord]

/-- Witness for the amended claim C6 at three concrete rows. -/
theorem Ingestion.parse_failure_marker_witness :
    Ingestion.processRow (fun n => String.append "u" (toString n)) (fun s => s)
      "sheet1" "Feb" 2 ⟨"2024-02-05", "Lunch", "Food", "", "", "", ""⟩
      ⟨⟨[], 0, 0⟩, [], 0, 0, []⟩ = ⟨⟨[], 0, 0⟩, [], 0, 0, []⟩
    ∧ Ingestion.processRow (fun n => String.append "u" (toString n)) (fun s => s)
      "sheet1" "Feb" 2 ⟨"soon", "Taxi", "Travel", "800", "", "", ""⟩
      ⟨⟨[], 0, 0⟩, [], 0, 0, []⟩
      = ⟨⟨[], 0, 0⟩, [⟨"Feb", Ingestion.SheetCol.F, 2, "INVALID DATE"⟩], 0, 0, []⟩
    ∧ (∃ r : Ingestion.StagingRecord,
        (Ingestion.processRow (fun n => String.append "u" (toString n)) (fun s => s)
          "sheet1" "Feb" 2 ⟨"2024-02-05", "Paper", "Office", "abc", "", "", ""⟩
          ⟨⟨[], 0, 0⟩, [], 0, 0, []⟩).db.records = [] ++ [r]
        ∧ r.amount = none
        ∧ r.status = Ingestion.StagingStatus.PENDING
        ∧ r.syncUuid = (fun n : Nat => String.append "u" (toString n)) 0) := by
  have h := Ingestion.parse_failure_marker_behaviour
    (fun n => String.append "u" (toString n)) (fun s => s) "sheet1" "Feb" 2
    ⟨"2024-02-05", "Lunch", "Food", "", "", "", ""⟩
    ⟨"soon", "Taxi", "Travel", "800", "", "", ""⟩
    ⟨"2024-02-05", "Paper", "Office", "abc", "", "", ""⟩
    ⟨⟨[], 0, 0⟩, [], 0, 0, []⟩ ⟨⟨[], 0, 0⟩, [], 0, 0, []⟩ ⟨⟨[], 0, 0⟩, [], 0, 0, []⟩
    (2024, 2, 5) (by decide) (by decide) (by decide) (by decide) (by decide) (by decide)
    (by decide)
  exact ⟨h.1, h.2.1, h.2.2.1⟩

/-- Claim C6, counterexample: a tab pass over a single row whose amount
    cell is blank. The claim says the skipped row receives a visible
    in-sheet marker; in the code the pass runs (it is not a cache skip),
    writes no batch update at all, and creates no record — the row is
    dropped silently. -/
theorem Ingestion.blank_amount_row_gets_no_marker :
    (Ingestion.processTab (fun n => String.append "u" (toString n)) (fun s => s) "sheet1"
      ⟨⟨[], 0, 0⟩, ⟨[]⟩⟩ "Feb"
      [⟨"2024-02-05", "Lunch", "Food", "", "", "", ""⟩]).2.batchUpdates = []
    ∧ (Ingestion.processTab (fun n => String.append "u" (toString n)) (fun s => s) "sheet1"
      ⟨⟨[], 0, 0⟩, ⟨[]⟩⟩ "Feb"
      [⟨"2024-02-05", "Lunch", "Food", "", "", "", ""⟩]).2.skipped = false
    ∧ (Ingestion.processTab (fun n => String.append "u" (toString n)) (fun s => s) "sheet1"
      ⟨⟨[], 0, 0⟩, ⟨[]⟩⟩ "Feb"
      [⟨"2024-02-05", "Lunch", "Food", "", "", "", ""⟩]).1.db.records = [] :=
  ⟨rfl, rfl, rfl⟩

namespace Ingestion

/-- Number of staging records carrying a given stable identifier. -/
def countUuid (records : List StagingRecord) (key : String) : Nat :=
  records.countP (fun r => decide (r.syncUuid = key))

/-- The sheet row as it reads after the write-backs of a fresh-row pass
    land: the stable identifier in column G and the STAGED marker in
    column F. -/
def stagedRow (row : Row) (u : String) : Row :=
  { row with uuid := u, statusCell := "STAGED" }

theorem countP_map_pred_preserved {α : Type} (p : α → Bool) (g : α → α) (l : List α)
    (h : ∀ a, p (g a) = p a) : (l.map g).countP p = l.countP p := by
  induction l with
  | nil => rfl
  | cons a l ih =>
    simp [List.countP_cons, h a, ih]

theorem countUuid_eq_zero (records : List StagingRecord) (key : String)
    (h : ∀ x ∈ records, ¬x.syncUuid = key) : countUuid records key = 0 := by
  unfold countUuid
  rw [List.countP_eq_zero]
  intro a ha
  simp [h a ha]

theorem findByUuid_append_singleton (records : List StagingRecord) (r : StagingRecord)
    (key : String) (h : ∀ x ∈ records, ¬x.syncUuid = key) (hr : r.syncUuid = key) :
    findByUuid (records ++ [r]) key = some r := by
  induction records with
  | nil => simp [findByUuid, List.find?, hr]
  | cons a l ih =>
    have ha : (decide (a.syncUuid = key)) = false :=
      decide_eq_false (h a (List.mem_cons_self a l))
    have ih2 := ih (fun x hx => h x (List.mem_cons_of_mem a hx))
    simp only [findByUuid, List.cons_append, List.find?_cons, ha] at ih2 ⊢
    exact ih2

theorem cacheLookup_updateHash (c : CacheStore) (sheetId tab : String) (rows : List Row) :
    cacheLookup (updateHash c sheetId tab rows) sheetId tab = some rows := by
  simp [cacheLookup, updateHash, List.find?_cons]

end Ingestion

/-- Claim C7: a fetched row bearing no stable identifier is staged exactly
    once — one StagingTransaction is created, and the fresh identifier and
    the STAGED marker are queued as write-backs for that row — and
    re-running reconciliation over the resulting unchanged sheet creates
    no duplicate: the pass that sees the written-back identifier takes the
    update path for the now-known identifier and creates nothing, and a
    further pass over content the cache has already committed is skipped
    outright. Hypotheses: the row parses (non-blank amount, valid date,
    blank identifier cell), and the freshly minted identifier is non-blank
    and not already present in the store (uuidv4). -/
theorem Ingestion.new_row_staged_exactly_once
    (fresh : Nat → String) (archive : String → String) (sheetId tab : String)
    (st : Ingestion.SheetState) (row : Ingestion.Row) (d : Nat × Nat × Nat)
    (ha : ¬JsModel.jsTrim row.amountStr = "")
    (hd : JsModel.parseDateM row.dateStr = some d)
    (hu : JsModel.jsTrim row.uuid = "")
    (hfu : ¬JsModel.jsTrim (fresh st.db.nextUuidIdx) = "")
    (hnotin : ∀ r ∈ st.db.records, ¬r.syncUuid = fresh st.db.nextUuidIdx)
    (hch : Ingestion.hasChanged st.cache sheetId tab [row] = true) :
    Ingestion.countUuid
        (Ingestion.processTab fresh archive sheetId st tab [row]).1.db.records
        (fresh st.db.nextUuidIdx) = 1
    ∧ (Ingestion.processTab fresh archive sheetId st tab [row]).1.db.records.length
        = st.db.records.length + 1
    ∧ (Ingestion.processTab fresh archive sheetId st tab [row]).2.batchUpdates
        = [⟨tab, Ingestion.SheetCol.G, 2, fresh st.db.nextUuidIdx⟩,
           ⟨tab, Ingestion.SheetCol.F, 2, "STAGED"⟩]
    ∧ (Ingestion.processTab fresh archive sheetId
          (Ingestion.processTab fresh archive sheetId st tab [row]).1 tab
          [Ingestion.stagedRow row (fresh st.db.nextUuidIdx)]).1.db.records.length
        = (Ingestion.processTab fresh archive sheetId st tab [row]).1.db.records.length
    ∧ Ingestion.countUuid
        (Ingestion.processTab fresh archive sheetId
          (Ingestion.processTab fresh archive sheetId st tab [row]).1 tab
          [Ingestion.stagedRow row (fresh st.db.nextUuidIdx)]).1.db.records
        (fresh st.db.nextUuidIdx) = 1
    ∧ (Ingestion.processTab fresh archive sheetId
          (Ingestion.processTab fresh archive sheetId st tab [row]).1 tab
          [Ingestion.stagedRow row (fresh st.db.nextUuidIdx)]).2.newRows = 0
    ∧ (Ingestion.processTab fresh archive sheetId
          (Ingestion.processTab fresh archive sheetId st tab [row]).1 tab
          [Ingestion.stagedRow row (fresh st.db.nextUuidIdx)]).2.skipped = false
    ∧ (Ingestion.processTab fresh archive sheetId
          (Ingestion.processTab fresh archive sheetId
            (Ingestion.processTab fresh archive sheetId st tab [row]).1 tab
            [Ingestion.stagedRow row (fresh st.db.nextUuidIdx)]).1 tab
          [Ingestion.stagedRow row (fresh st.db.nextUuidIdx)]).1
        = (Ingestion.processTab fresh archive sheetId
            (Ingestion.processTab fresh archive sheetId st tab [row]).1 tab
            [Ingestion.stagedRow row (fresh st.db.nextUuidIdx)]).1
    ∧ (Ingestion.processTab fresh archive sheetId
          (Ingestion.processTab fresh archive sheetId
            (Ingestion.processTab fresh archive sheetId st tab [row]).1 tab
            [Ingestion.stagedRow row (fresh st.db.nextUuidIdx)]).1 tab
          [Ingestion.stagedRow row (fresh st.db.nextUuidIdx)]).2.skipped = true := by
  have hnotbool : (Ingestion.hasChanged st.cache sheetId tab [row]) = true := hch
  -- the record created by pass one
  have hacc1 : Ingestion.processRows fresh archive sheetId tab 2
      ⟨st.db, [], 0, 0, []⟩ [row]
      = Ingestion.processRow fresh archive sheetId tab 2 row ⟨st.db, [], 0, 0, []⟩ := rfl
  have hcreate := Ingestion.processRow_create fresh archive sheetId tab 2 row
    ⟨st.db, [], 0, 0, []⟩ d ha hd hu
  have hp1 : Ingestion.processTab fresh archive sheetId st tab [row]
      = (⟨{ records := st.db.records
              ++ [Ingestion.createdRecord fresh archive sheetId tab 2 row st.db d],
            nextRecId := st.db.nextRecId + 1,
            nextUuidIdx := st.db.nextUuidIdx + 1 },
          Ingestion.updateHash st.cache sheetId tab [row]⟩,
         ⟨false,
          [⟨tab, Ingestion.SheetCol.G, 2,
              (Ingestion.createdRecord fresh archive sheetId tab 2 row st.db d).syncUuid⟩,
           ⟨tab, Ingestion.SheetCol.F, 2, "STAGED"⟩],
          1, 0,
          [((Ingestion.createdRecord fresh archive sheetId tab 2 row st.db d).id,
            row.amountStr)], 1⟩) := by
    simp only [Ingestion.processTab, hnotbool, Bool.not_true, Bool.false_eq_true, if_false,
      hacc1, hcreate]
    simp
  have hsync : (Ingestion.createdRecord fresh archive sheetId tab 2 row st.db d).syncUuid
      = fresh st.db.nextUuidIdx := rfl
  have hstat : (Ingestion.createdRecord fresh archive sheetId tab 2 row st.db d).status
      = Ingestion.StagingStatus.PENDING := rfl
  -- pass one conclusions
  have c1 : Ingestion.countUuid
      (Ingestion.processTab fresh archive sheetId st tab [row]).1.db.records
      (fresh st.db.nextUuidIdx) = 1 := by
    rw [hp1]
    unfold Ingestion.countUuid
    rw [List.countP_append]
    have h0 : Ingestion.countUuid st.db.records (fresh st.db.nextUuidIdx) = 0 :=
      Ingestion.countUuid_eq_zero st.db.records (fresh st.db.nextUuidIdx) hnotin
    unfold Ingestion.countUuid at h0
    rw [h0]
    simp [hsync]
  have c2 : (Ingestion.processTab fresh archive sheetId st tab [row]).1.db.records.length
      = st.db.records.length + 1 := by
    rw [hp1]
    simp
  have c3 : (Ingestion.processTab fresh archive sheetId st tab [row]).2.batchUpdates
      = [⟨tab, Ingestion.SheetCol.G, 2, fresh st.db.nextUuidIdx⟩,
         ⟨tab, Ingestion.SheetCol.F, 2, "STAGED"⟩] := by
    rw [hp1]
    simp [hsync]
  -- the second pass sees the written-back row and takes the update path
  have hrowne : ¬(row = Ingestion.stagedRow row (fresh st.db.nextUuidIdx)) := by
    intro h
    apply hfu
    have : row.uuid = fresh st.db.nextUuidIdx := by
      rw [h]; rfl
    rw [← this]
    exact hu
  have hch2 : Ingestion.hasChanged (Ingestion.updateHash st.cache sheetId tab [row])
      sheetId tab [Ingestion.stagedRow row (fresh st.db.nextUuidIdx)] = true := by
    unfold Ingestion.hasChanged
    rw [Ingestion.cacheLookup_updateHash]
    simp only [Bool.not_eq_true']
    apply decide_eq_false
    intro h
    apply hrowne
    have h2 := (Option.some.injEq _ _).mp h
    exact (List.cons.injEq _ _ _ _).mp h2 |>.1
  have hu2 : ¬JsModel.jsTrim (Ingestion.stagedRow row (fresh st.db.nextUuidIdx)).uuid = "" := hfu
  have ha2 : ¬JsModel.jsTrim (Ingestion.stagedRow row (fresh st.db.nextUuidIdx)).amountStr = "" := ha
  have hd2 : JsModel.parseDateM (Ingestion.stagedRow row (fresh st.db.nextUuidIdx)).dateStr
      = some d := hd
  have hfind : Ingestion.findByUuid
      (st.db.records ++ [Ingestion.createdRecord fresh archive sheetId tab 2 row st.db d])
      (Ingestion.stagedRow row (fresh st.db.nextUuidIdx)).uuid
      = some (Ingestion.createdRecord fresh archive sheetId tab 2 row st.db d) :=
    Ingestion.findByUuid_append_singleton st.db.records _ _ hnotin hsync
  have hnap : ¬(Ingestion.createdRecord fresh archive sheetId tab 2 row st.db d).status
      = Ingestion.StagingStatus.APPROVED := by
    rw [hstat]
    intro h
    exact Ingestion.StagingStatus.noConfusion h
  have hupd := Ingestion.processRow_update fresh archive sheetId tab 2
    (Ingestion.stagedRow row (fresh st.db.nextUuidIdx))
    ⟨{ records := st.db.records
         ++ [Ingestion.createdRecord fresh archive sheetId tab 2 row st.db d],
       nextRecId := st.db.nextRecId + 1,
       nextUuidIdx := st.db.nextUuidIdx + 1 }, [], 0, 0, []⟩ d
    (Ingestion.createdRecord fresh archive sheetId tab 2 row st.db d)
    ha2 hd2 hu2 hfind hnap
  have hp2 : Ingestion.processTab fresh archive sheetId
      (Ingestion.processTab fresh archive sheetId st tab [row]).1 tab
      [Ingestion.stagedRow row (fresh st.db.nextUuidIdx)]
      = (⟨{ records := (st.db.records
              ++ [Ingestion.createdRecord fresh archive sheetId tab 2 row st.db d]).map
              (fun r =>
                if r.syncUuid = (Ingestion.stagedRow row (fresh st.db.nextUuidIdx)).uuid then
                  Ingestion.updatedFields archive 2
                    (Ingestion.stagedRow row (fresh st.db.nextUuidIdx)) d r
                else r),
            nextRecId := st.db.nextRecId + 1,
            nextUuidIdx := st.db.nextUuidIdx + 1 },
          Ingestion.updateHash (Ingestion.updateHash st.cache sheetId tab [row]) sheetId tab
            [Ingestion.stagedRow row (fresh st.db.nextUuidIdx)]⟩,
         ⟨false, [], 0, 1,
          [((Ingestion.createdRecord fresh archive sheetId tab 2 row st.db d).id,
            (Ingestion.stagedRow row (fresh st.db.nextUuidIdx)).amountStr)], 1⟩) := by
    rw [hp1]
    simp only [Ingestion.processTab, hch2, Bool.not_true, Bool.false_eq_true, if_false,
      Ingestion.processRows, hupd]
    simp
  have hmap : ∀ r : Ingestion.StagingRecord,
      ((fun r =>
        if r.syncUuid = (Ingestion.stagedRow row (fresh st.db.nextUuidIdx)).uuid then
          Ingestion.updatedFields archive 2
            (Ingestion.stagedRow row (fresh st.db.nextUuidIdx)) d r
        else r) r).syncUuid = r.syncUuid := by
    intro r
    by_cases h : r.syncUuid = (Ingestion.stagedRow row (fresh st.db.nextUuidIdx)).uuid
    · simp [h, Ingestion.updatedFields]
    · simp [h]
  have c4 : (Ingestion.processTab fresh archive sheetId
      (Ingestion.processTab fresh archive sheetId st tab [row]).1 tab
      [Ingestion.stagedRow row (fresh st.db.nextUuidIdx)]).1.db.records.length
      = (Ingestion.processTab fresh archive sheetId st tab [row]).1.db.records.length := by
    rw [hp2, hp1]
    simp
  have c5 : Ingestion.countUuid
      (Ingestion.processTab fresh archive sheetId
        (Ingestion.processTab fresh archive sheetId st tab [row]).1 tab
        [Ingestion.stagedRow row (fresh st.db.nextUuidIdx)]).1.db.records
      (fresh st.db.nextUuidIdx) = 1 := by
    rw [hp2]
    unfold Ingestion.countUuid
    rw [Ingestion.countP_map_pred_preserved _ _ _
      (fun r => by rw [hmap r])]
    have := c1
    rw [hp1] at this
    unfold Ingestion.countUuid at this
    exact this
  have c6 : (Ingestion.processTab fresh archive sheetId
      (Ingestion.processTab fresh archive sheetId st tab [row]).1 tab
      [Ingestion.stagedRow row (fresh st.db.nextUuidIdx)]).2.newRows = 0 := by
    rw [hp2]
  have c7 : (Ingestion.processTab fresh archive sheetId
      (Ingestion.processTab fresh archive sheetId st tab [row]).1 tab
      [Ingestion.stagedRow row (fresh st.db.nextUuidIdx)]).2.skipped = false := by
    rw [hp2]
  -- the third pass is a cache skip
  have hch3 : Ingestion.hasChanged
      (Ingestion.updateHash (Ingestion.updateHash st.cache sheetId tab [row]) sheetId tab
        [Ingestion.stagedRow row (fresh st.db.nextUuidIdx)])
      sheetId tab [Ingestion.stagedRow row (fresh st.db.nextUuidIdx)] = false := by
    unfold Ingestion.hasChanged
    rw [Ingestion.cacheLookup_updateHash]
    simp
  have hp3 : Ingestion.processTab fresh archive sheetId
      (Ingestion.processTab fresh archive sheetId
        (Ingestion.processTab fresh archive sheetId st tab [row]).1 tab
        [Ingestion.stagedRow row (fresh st.db.nextUuidIdx)]).1 tab
      [Ingestion.stagedRow row (fresh st.db.nextUuidIdx)]
      = ((Ingestion.processTab fresh archive sheetId
          (Ingestion.processTab fresh archive sheetId st tab [row]).1 tab
          [Ingestion.stagedRow row (fresh st.db.nextUuidIdx)]).1,
         ⟨true, [], 0, 0, [], 0⟩) := by
    rw [hp2]
    simp only [Ingestion.processTab, hch3, Bool.not_false, if_true]
  exact ⟨c1, c2, c3, c4, c5, c6, c7, by rw [hp3], by rw [hp3]⟩

/-- Witness for claim C7 at a concrete fresh row over an empty store. -/
theorem Ingestion.new_row_staged_once_witness :
    Ingestion.countUuid
      (Ingestion.processTab (fun n => String.append "u" (toString n)) (fun s => s) "s1"
        ⟨⟨[], 0, 0⟩, ⟨[]⟩⟩ "Feb"
        [⟨"2024-02-05", "Lunch", "Food", "1000", "", "", ""⟩]).1.db.records
      (String.append "u" (toString 0)) = 1
    ∧ Ingestion.countUuid
      (Ingestion.processTab (fun n => String.append "u" (toString n)) (fun s => s) "s1"
        (Ingestion.processTab (fun n => String.append "u" (toString n)) (fun s => s) "s1"
          ⟨⟨[], 0, 0⟩, ⟨[]⟩⟩ "Feb"
          [⟨"2024-02-05", "Lunch", "Food", "1000", "", "", ""⟩]).1 "Feb"
        [Ingestion.stagedRow ⟨"2024-02-05", "Lunch", "Food", "1000", "", "", ""⟩
          (String.append "u" (toString 0))]).1.db.records
      (String.append "u" (toString 0)) = 1 :=
  ⟨(Ingestion.new_row_staged_exactly_once (fun n => String.append "u" (toString n))
      (fun s => s) "s1" "Feb" ⟨⟨[], 0, 0⟩, ⟨[]⟩⟩
      ⟨"2024-02-05", "Lunch", "Food", "1000", "", "", ""⟩ (2024, 2, 5)
      (by decide) (by decide) (by decide) (by decide) (by simp) (by decide)).1,
   (Ingestion.new_row_staged_exactly_once (fun n => String.append "u" (toString n))
      (fun s => s) "s1" "Feb" ⟨⟨[], 0, 0⟩, ⟨[]⟩⟩
      ⟨"2024-02-05", "Lunch", "Food", "1000", "", "", ""⟩ (2024, 2, 5)
      (by decide) (by decide) (by decide) (by decide) (by simp) (by decide)).2.2.2.2.1⟩

/-- Claim C9: formula-injection sanitization of description and category is
    applied exactly when a StagingTransaction is first created from a row
    with no stable identifier; the update path for an existing PENDING
    record and the orphan re-creation path store the raw spreadsheet text
    verbatim, so a formula-prefixed edit to an already-staged row reaches
    the store unsanitized. -/
theorem Ingestion.sanitize_only_on_create_path
    (fresh : Nat → String) (archive : String → String) (sheetId tab : String)
    (rowIndex : Nat) (rowNew rowKnown rowOrphan : Ingestion.Row)
    (accN accK accO : Ingestion.TabAcc) (dN dK dO : Nat × Nat × Nat)
    (existing : Ingestion.StagingRecord)
    (hN1 : ¬JsModel.jsTrim rowNew.amountStr = "")
    (hN2 : JsModel.parseDateM rowNew.dateStr = some dN)
    (hN3 : JsModel.jsTrim rowNew.uuid = "")
    (hK1 : ¬JsModel.jsTrim rowKnown.amountStr = "")
    (hK2 : JsModel.parseDateM rowKnown.dateStr = some dK)
    (hK3 : ¬JsModel.jsTrim rowKnown.uuid = "")
    (hK4 : Ingestion.findByUuid accK.db.records rowKnown.uuid = some existing)
    (hK5 : existing.status = Ingestion.StagingStatus.PENDING)
    (hO1 : ¬JsModel.jsTrim rowOrphan.amountStr = "")
    (hO2 : JsModel.parseDateM rowOrphan.dateStr = some dO)
    (hO3 : ¬JsModel.jsTrim rowOrphan.uuid = "")
    (hO4 : Ingestion.findByUuid accO.db.records rowOrphan.uuid = none) :
    ((Ingestion.processRow fresh archive sheetId tab rowIndex rowNew accN).db.records
        = accN.db.records
          ++ [Ingestion.createdRecord fresh archive sheetId tab rowIndex rowNew accN.db dN]
      ∧ (Ingestion.createdRecord fresh archive sheetId tab rowIndex rowNew accN.db dN).description
        = Sanitizer.sanitizeString rowNew.description
      ∧ (Ingestion.createdRecord fresh archive sheetId tab rowIndex rowNew accN.db dN).category
        = Sanitizer.sanitizeString rowNew.category)
    ∧ (∃ r' ∈ (Ingestion.processRow fresh archive sheetId tab rowIndex rowKnown accK).db.records,
        r'.id = existing.id
        ∧ r'.syncUuid = existing.syncUuid
        ∧ r'.status = existing.status
        ∧ r'.description = rowKnown.description
        ∧ r'.category = rowKnown.category)
    ∧ ((Ingestion.processRow fresh archive sheetId tab rowIndex rowOrphan accO).db.records
        = accO.db.records
          ++ [Ingestion.orphanRecord archive sheetId rowIndex rowOrphan accO.db dO]
      ∧ (Ingestion.orphanRecord archive sheetId rowIndex rowOrphan accO.db dO).description
        = rowOrphan.description
      ∧ (Ingestion.orphanRecord archive sheetId rowIndex rowOrphan accO.db dO).category
        = rowOrphan.category) := by
  have hK5' : ¬existing.status = Ingestion.StagingStatus.APPROVED := by
    rw [hK5]
    intro h
    exact Ingestion.StagingStatus.noConfusion h
  refine ⟨⟨?_, rfl, rfl⟩, ?_, ⟨?_, rfl, rfl⟩⟩
  · rw [Ingestion.processRow_create fresh archive sheetId tab rowIndex rowNew accN dN hN1 hN2 hN3]
  · have hmem : existing ∈ accK.db.records := by
      have h := hK4
      unfold Ingestion.findByUuid at h
      exact List.mem_of_find?_eq_some h
    have hsy : existing.syncUuid = rowKnown.uuid := by
      have h := hK4
      unfold Ingestion.findByUuid at h
      have hpa := List.find?_some h
      exact of_decide_eq_true hpa
    rw [Ingestion.processRow_update fresh archive sheetId tab rowIndex rowKnown accK dK
      existing hK1 hK2 hK3 hK4 hK5']
    refine ⟨Ingestion.updatedFields archive rowIndex rowKnown dK existing, ?_, rfl, rfl, rfl, rfl, rfl⟩
    have himg : (fun r => if r.syncUuid = rowKnown.uuid then
        Ingestion.updatedFields archive rowIndex rowKnown dK r else r) existing
        = Ingestion.updatedFields archive rowIndex rowKnown dK existing := by
      simp [hsy]
    rw [← himg]
    exact List.mem_map_of_mem _ hmem
  · rw [Ingestion.processRow_orphan fresh archive sheetId tab rowIndex rowOrphan accO dO
      hO1 hO2 hO3 hO4]

/-- Witness for claim C9: a formula-prefixed description reaches the store
    stripped on the create path but verbatim on the update and orphan
    paths. -/
theorem Ingestion.sanitize_only_on_create_witness :
    (Ingestion.createdRecord (fun n => String.append "u" (toString n)) (fun s => s)
        "s1" "Feb" 2 ⟨"2024-02-05", "=2+5", "Food", "1000", "", "", ""⟩
        ⟨[], 0, 0⟩ (2024, 2, 5)).description = "2+5"
    ∧ (∃ r' ∈ (Ingestion.processRow (fun n => String.append "u" (toString n)) (fun s => s)
          "s1" "Feb" 2 ⟨"2024-02-05", "=2+5", "Cat", "900", "", "STAGED", "k1"⟩
          ⟨⟨[⟨7, "s1", 2, some "Feb", some 100, "old", "Cat", (2024, 1, 5), "", false, "k1",
              ⟨"", "", "", "", "", "", ""⟩, Ingestion.StagingStatus.PENDING, ""⟩], 8, 0⟩,
            [], 0, 0, []⟩).db.records,
        r'.id = 7
        ∧ r'.syncUuid = "k1"
        ∧ r'.status = Ingestion.StagingStatus.PENDING
        ∧ r'.description = "=2+5"
        ∧ r'.category = "Cat")
    ∧ (Ingestion.orphanRecord (fun s => s) "s1" 2
        ⟨"2024-02-05", "=2+5", "Misc", "700", "", "", "zz"⟩ ⟨[], 0, 0⟩
        (2024, 2, 5)).description = "=2+5"
    ∧ Sanitizer.sanitizeString "=2+5" = "2+5" := by
  have h := Ingestion.sanitize_only_on_create_path
    (fun n => String.append "u" (toString n)) (fun s => s) "s1" "Feb" 2
    ⟨"2024-02-05", "=2+5", "Food", "1000", "", "", ""⟩
    ⟨"2024-02-05", "=2+5", "Cat", "900", "", "STAGED", "k1"⟩
    ⟨"2024-02-05", "=2+5", "Misc", "700", "", "", "zz"⟩
    ⟨⟨[], 0, 0⟩, [], 0, 0, []⟩
    ⟨⟨[⟨7, "s1", 2, some "Feb", some 100, "old", "Cat", (2024, 1, 5), "", false, "k1",
        ⟨"", "", "", "", "", "", ""⟩, Ingestion.StagingStatus.PENDING, ""⟩], 8, 0⟩,
      [], 0, 0, []⟩
    ⟨⟨[], 0, 0⟩, [], 0, 0, []⟩
    (2024, 2, 5) (2024, 2, 5) (2024, 2, 5)
    ⟨7, "s1", 2, some "Feb", some 100, "old", "Cat", (2024, 1, 5), "", false, "k1",
      ⟨"", "", "", "", "", "", ""⟩, Ingestion.StagingStatus.PENDING, ""⟩
    (by decide) (by decide) (by decide)
    (by decide) (by decide) (by decide) (by rfl) (by rfl)
    (by decide) (by decide) (by decide) (by rfl)
  exact ⟨(h.1.2.1).trans (by decide), h.2.1, h.2.2.2.1, by decide⟩

namespace Approval

/-- StagingTransaction fields read by StagingApprovalService; syncUuid is
    the stable identifier. -/
structure Staging where
  id : Nat
  description : String
  category : String
  amount : Option Rat
  date : Option (Nat × Nat × Nat)
  receiptUrl : String
  sheetRowIndex : Nat
  status : Ingestion.StagingStatus
  note : String
  syncUuid : String
  deriving Repr, DecidableEq

/-- Ledger transaction created by the promotion. The source stores no link
    back to the staging row; sourceStableId is ghost provenance recording
    which approval created the transaction, used only to count
    promotions. -/
structure LedgerTx where
  id : Nat
  amount : Option Rat
  description : String
  receiptUrl : String
  recordedById : String
  sourceStableId : String
  deriving Repr, DecidableEq

structure AuditEntry where
  stagingId : Nat
  adminUserId : String
  adminUserEmail : String
  ipAddress : String
  approved : Bool
  details : String
  deriving Repr, DecidableEq

/-- One updateRowStatus write-back sent to the sheet by the workflow. -/
structure FeedbackWrite where
  sheetRowIndex : Nat
  marker : String
  note : String
  deriving Repr, DecidableEq

structure ApprovalState where
  stagings : List Staging
  ledger : List LedgerTx
  nextTxId : Nat
  audit : List AuditEntry
  feedback : List FeedbackWrite
  vendorHints : List (String × String)
  hasBankAccount : Bool
  deriving Repr, DecidableEq

inductive ApprovalErr
  | notFound
  | conflict
  | noBankAccount
  | updateFailed
  deriving Repr, DecidableEq

def findStaging (l : List Staging) (id : Nat) : Option Staging :=
  l.find? (fun s => decide (s.id = id))

/-- First space-separated token of a description, trimmed; the vendor name
    of AnomalyEngineService.learnVendor. -/
def firstToken (s : String) : String :=
  JsModel.jsTrim (String.mk (s.data.takeWhile (fun c => ¬c = ' ')))

/-- AnomalyEngineService.learnVendor: upsert the vendor-to-category hint
    when the leading token is longer than two characters. -/
def learnVendor (hints : List (String × String)) (description category : String) :
    List (String × String) :=
  let vendorName := firstToken description
  if 2 < vendorName.data.length then
    if (hints.find? (fun h => decide (h.1 = vendorName))).isSome then
      hints.map (fun h => if h.1 = vendorName then (h.1, category) else h)
    else hints ++ [(vendorName, category)]
  else hints

/-- Description stored on the ledger transaction: the sanitized staging
    description, or the Sheet Import fallback when that is empty. -/
def ledgerDescription (staging : Staging) : String :=
  let d := Sanitizer.sanitizeString staging.description
  if d = "" then "Sheet Import" else d

/-- The ledger transaction created by approving a staging row. -/
def promotedTx (st : ApprovalState) (staging : Staging) (adminUserId : String) : LedgerTx :=
  ⟨st.nextTxId, staging.amount, ledgerDescription staging, staging.receiptUrl,
   adminUserId, staging.syncUuid⟩

/-- Category stored on approval: the sanitized corrected category when one
    is given (truthy), else the category already on the row. -/
def chosenCategory (correctedCategory : Option String) (staging : Staging) : String :=
  match correctedCategory with
  | some c => if c = "" then staging.category else Sanitizer.sanitizeString c
  | none => staging.category

/-- Per-row update performed by the approve status write. -/
def approvedUpdate (id : Nat) (sanitizedCategory : String) (s : Staging) : Staging :=
  if s.id = id then
    { s with status := Ingestion.StagingStatus.APPROVED, category := sanitizedCategory }
  else s

/-- Per-row update performed by the reject status write. -/
def rejectedUpdate (id : Nat) (sanitizedReason : String) (s : Staging) : Staging :=
  if s.id = id then
    { s with status := Ingestion.StagingStatus.REJECTED, note := sanitizedReason }
  else s

/-- StagingApprovalService.approve, run to completion: guard on existence
    and PENDING status, find a bank account, create the ledger transaction,
    flip the staging row to APPROVED with the corrected category, journal
    the decision, feed the learning hook, and write the APPROVED marker
    back (the feedback try-catch swallows write failures; the successful
    write is modelled). -/
def approve (st : ApprovalState) (id : Nat)
    (adminUserId adminUserEmail ipAddress : String) (correctedCategory : Option String) :
    ApprovalState × Except ApprovalErr LedgerTx :=
  match findStaging st.stagings id with
  | none => (st, Except.error ApprovalErr.notFound)
  | some staging =>
    if ¬staging.status = Ingestion.StagingStatus.PENDING then
      (st, Except.error ApprovalErr.conflict)
    else
      let sanitizedCategory := chosenCategory correctedCategory staging
      if ¬st.hasBankAccount then (st, Except.error ApprovalErr.noBankAccount)
      else
        let tx := promotedTx st staging adminUserId
        let st1 : ApprovalState := { st with ledger := st.ledger ++ [tx], nextTxId := st.nextTxId + 1 }
        let st2 : ApprovalState := { st1 with
          stagings := st1.stagings.map (approvedUpdate id sanitizedCategory) }
        let st3 : ApprovalState := { st2 with audit := st2.audit
          ++ [⟨id, adminUserId, adminUserEmail, ipAddress, true, "Approved"⟩] }
        let fallbackCategory := if staging.category = "" then "Archived" else staging.category
        let newHints := if ¬staging.description = "" then
            learnVendor st3.vendorHints staging.description fallbackCategory
          else st3.vendorHints
        let st4 : ApprovalState := { st3 with vendorHints := newHints }
        let st5 : ApprovalState := { st4 with feedback := st4.feedback
          ++ [⟨staging.sheetRowIndex, "APPROVED", String.append "Approved by " adminUserEmail⟩] }
        (st5, Except.ok tx)

/-- An approve call that fails between the ledger create and the staging
    update (each store call in the source is an independent await with no
    enclosing transaction, so a thrown update leaves the created ledger
    transaction behind while the row stays PENDING). -/
def approveCrashBeforeUpdate (st : ApprovalState) (id : Nat)
    (adminUserId : String) : ApprovalState × Except ApprovalErr LedgerTx :=
  match findStaging st.stagings id with
  | none => (st, Except.error ApprovalErr.notFound)
  | some staging =>
    if ¬staging.status = Ingestion.StagingStatus.PENDING then
      (st, Except.error ApprovalErr.conflict)
    else
      if ¬st.hasBankAccount then (st, Except.error ApprovalErr.noBankAccount)
      else
        let tx := promotedTx st staging adminUserId
        ({ st with ledger := st.ledger ++ [tx], nextTxId := st.nextTxId + 1 },
         Except.error ApprovalErr.updateFailed)

/-- StagingApprovalService.reject: only existence is checked — there is no
    status guard — then the row is set to REJECTED with the sanitized
    reason, the decision journaled, and the REJECTED marker written
    back. -/
def reject (st : ApprovalState) (id : Nat)
    (adminUserId adminUserEmail ipAddress reason : String) :
    ApprovalState × Except ApprovalErr Unit :=
  match findStaging st.stagings id with
  | none => (st, Except.error ApprovalErr.notFound)
  | some staging =>
    let sanitizedReason := Sanitizer.sanitizeString reason
    let st1 : ApprovalState := { st with
      stagings := st.stagings.map (rejectedUpdate id sanitizedReason) }
    let st2 : ApprovalState := { st1 with audit := st1.audit
      ++ [⟨id, adminUserId, adminUserEmail, ipAddress, false, sanitizedReason⟩] }
    let st3 : ApprovalState := { st2 with feedback := st2.feedback
      ++ [⟨staging.sheetRowIndex, "REJECTED", sanitizedReason⟩] }
    (st3, Except.ok ())

/-- StagingApprovalService.bulkApprove: each id approved independently,
    collecting per-item success, never aborting the batch. -/
def bulkApprove (st : ApprovalState) (ids : List Nat)
    (adminUserId adminUserEmail ipAddress : String) :
    ApprovalState × List (Nat × Bool) :=
  match ids with
  | [] => (st, [])
  | id :: rest =>
    let r := approve st id adminUserId adminUserEmail ipAddress none
    let ok := match r.2 with
      | Except.ok _ => true
      | Except.error _ => false
    let rs := bulkApprove r.1 rest adminUserId adminUserEmail ipAddress
    (rs.1, (id, ok) :: rs.2)

/-- Number of ledger transactions whose creating approval was for the
    given stable identifier. -/
def countLedgerFor (ledger : List LedgerTx) (u : String) : Nat :=
  ledger.countP (fun t => decide (t.sourceStableId = u))

theorem find?_map_pred_preserved {α : Type} (p : α → Bool) (g : α → α) (l : List α)
    (h : ∀ a, p (g a) = p a) : (l.map g).find? p = (l.find? p).map g := by
  induction l with
  | nil => rfl
  | cons a l ih =>
    by_cases hp : p a = true
    · simp [List.find?_cons, h a, hp]
    · have hp' : p a = false := by
        cases hcase : p a
        · rfl
        · exact absurd hcase hp
      simp [List.find?_cons, h a, hp', ih]

end Approval

namespace Approval

theorem findStaging_mem (l : List Staging) (id : Nat) (stg : Staging)
    (h : findStaging l id = some stg) : stg ∈ l := by
  unfold findStaging at h
  exact List.mem_of_find?_eq_some h

theorem findStaging_id (l : List Staging) (id : Nat) (stg : Staging)
    (h : findStaging l id = some stg) : stg.id = id := by
  unfold findStaging at h
  have hpa := List.find?_some h
  exact of_decide_eq_true hpa

/-- Equation: approve on a row that is not PENDING fails with the conflict
    error and leaves the whole state unchanged. -/
theorem approve_resolved_eq (st : ApprovalState) (id : Nat)
    (u e ip : String) (cc : Option String) (stg : Staging)
    (hfind : findStaging st.stagings id = some stg)
    (hstat : ¬stg.status = Ingestion.StagingStatus.PENDING) :
    approve st id u e ip cc = (st, Except.error ApprovalErr.conflict) := by
  simp [approve, hfind, hstat]

/-- Equation: a completed approve of a PENDING row with a bank account
    available. -/
theorem approve_pending_eq (st : ApprovalState) (id : Nat)
    (u e ip : String) (cc : Option String) (stg : Staging)
    (hfind : findStaging st.stagings id = some stg)
    (hstat : stg.status = Ingestion.StagingStatus.PENDING)
    (hbank : st.hasBankAccount = true) :
    approve st id u e ip cc
      = ({ st with
            ledger := st.ledger ++ [promotedTx st stg u],
            nextTxId := st.nextTxId + 1,
            stagings := st.stagings.map (approvedUpdate id (chosenCategory cc stg)),
            audit := st.audit ++ [⟨id, u, e, ip, true, "Approved"⟩],
            vendorHints := (if ¬stg.description = "" then
                learnVendor st.vendorHints stg.description
                  (if stg.category = "" then "Archived" else stg.category)
              else st.vendorHints),
            feedback := st.feedback
              ++ [⟨stg.sheetRowIndex, "APPROVED", String.append "Approved by " e⟩] },
         Except.ok (promotedTx st stg u)) := by
  simp [approve, hfind, hstat, hbank]

/-- Equation: the crash-injected approve performs the ledger create and
    nothing else. -/
theorem approveCrashBeforeUpdate_pending_eq (st : ApprovalState) (id : Nat)
    (u : String) (stg : Staging)
    (hfind : findStaging st.stagings id = some stg)
    (hstat : stg.status = Ingestion.StagingStatus.PENDING)
    (hbank : st.hasBankAccount = true) :
    approveCrashBeforeUpdate st id u
      = ({ st with
            ledger := st.ledger ++ [promotedTx st stg u],
            nextTxId := st.nextTxId + 1 },
         Except.error ApprovalErr.updateFailed) := by
  simp [approveCrashBeforeUpdate, hfind, hstat, hbank]

/-- Equation: reject on any existing row, whatever its status. -/
theorem reject_found_eq (st : ApprovalState) (id : Nat)
    (u e ip reason : String) (stg : Staging)
    (hfind : findStaging st.stagings id = some stg) :
    reject st id u e ip reason
      = ({ st with
            stagings := st.stagings.map (rejectedUpdate id (Sanitizer.sanitizeString reason)),
            audit := st.audit
              ++ [⟨id, u, e, ip, false, Sanitizer.sanitizeString reason⟩],
            feedback := st.feedback
              ++ [⟨stg.sheetRowIndex, "REJECTED", Sanitizer.sanitizeString reason⟩] },
         Except.ok ()) := by
  simp [reject, hfind]

end Approval

/-- Claim C1, amended: for a staged row whose status is not PENDING, the
    approve operation fails with the conflict error and leaves the whole
    state — status, note and ledger — unchanged; the reject operation
    however performs no status check: rejecting an already-resolved (in
    particular an already-approved) row succeeds, overwriting the status
    to REJECTED and the note with the sanitized reason, while leaving the
    ledger unchanged. -/
theorem Approval.resolved_row_approve_conflicts_reject_flips
    (st : Approval.ApprovalState) (id : Nat)
    (u e ip reason : String) (cc : Option String) (stg : Approval.Staging)
    (hfind : Approval.findStaging st.stagings id = some stg)
    (hstat : ¬stg.status = Ingestion.StagingStatus.PENDING) :
    Approval.approve st id u e ip cc = (st, Except.error Approval.ApprovalErr.conflict)
    ∧ (Approval.reject st id u e ip reason).2 = Except.ok ()
    ∧ (∃ s' ∈ (Approval.reject st id u e ip reason).1.stagings,
        s'.id = stg.id
        ∧ s'.status = Ingestion.StagingStatus.REJECTED
        ∧ s'.note = Sanitizer.sanitizeString reason)
    ∧ (Approval.reject st id u e ip reason).1.ledger = st.ledger := by
  have hid := Approval.findStaging_id st.stagings id stg hfind
  have hmem := Approval.findStaging_mem st.stagings id stg hfind
  have hrej := Approval.reject_found_eq st id u e ip reason stg hfind
  refine ⟨Approval.approve_resolved_eq st id u e ip cc stg hfind hstat, ?_, ?_, ?_⟩
  · rw [hrej]
  · rw [hrej]
    refine ⟨Approval.rejectedUpdate id (Sanitizer.sanitizeString reason) stg,
      List.mem_map_of_mem _ hmem, ?_, ?_, ?_⟩
    · simp [Approval.rejectedUpdate, hid]
    · simp [Approval.rejectedUpdate, hid]
    · simp [Approval.rejectedUpdate, hid]
  · rw [hrej]

/-- Claim C1, counterexample: rejecting an already-approved row does not
    fail — it succeeds and flips the status to REJECTED, storing the
    reason in the note. -/
theorem Approval.reject_flips_already_approved_row :
    (Approval.reject ⟨[⟨1, "Lunch", "Food", some 100, some (2024, 2, 5), "", 2,
        Ingestion.StagingStatus.APPROVED, "", "k1"⟩], [], 0, [], [], [], true⟩
      1 "admin" "admin@x" "9.9.9.9" "nope").2 = Except.ok ()
    ∧ (Approval.reject ⟨[⟨1, "Lunch", "Food", some 100, some (2024, 2, 5), "", 2,
        Ingestion.StagingStatus.APPROVED, "", "k1"⟩], [], 0, [], [], [], true⟩
      1 "admin" "admin@x" "9.9.9.9" "nope").1.stagings
      = [⟨1, "Lunch", "Food", some 100, some (2024, 2, 5), "", 2,
          Ingestion.StagingStatus.REJECTED, "nope", "k1"⟩] :=
  ⟨rfl, rfl⟩

/-- Witness for the amended claim C1 at a concrete approved row. -/
theorem Approval.resolved_row_witness :
    Approval.approve ⟨[⟨1, "Lunch", "Food", some 100, some (2024, 2, 5), "", 2,
        Ingestion.StagingStatus.APPROVED, "", "k1"⟩], [], 0, [], [], [], true⟩
      1 "admin" "admin@x" "9.9.9.9" none
      = (⟨[⟨1, "Lunch", "Food", some 100, some (2024, 2, 5), "", 2,
          Ingestion.StagingStatus.APPROVED, "", "k1"⟩], [], 0, [], [], [], true⟩,
         Except.error Approval.ApprovalErr.conflict)
    ∧ (Approval.reject ⟨[⟨1, "Lunch", "Food", some 100, some (2024, 2, 5), "", 2,
        Ingestion.StagingStatus.APPROVED, "", "k1"⟩], [], 0, [], [], [], true⟩
      1 "admin" "admin@x" "9.9.9.9" "nope").2 = Except.ok () :=
  ⟨(Approval.resolved_row_approve_conflicts_reject_flips
      ⟨[⟨1, "Lunch", "Food", some 100, some (2024, 2, 5), "", 2,
        Ingestion.StagingStatus.APPROVED, "", "k1"⟩], [], 0, [], [], [], true⟩
      1 "admin" "admin@x" "9.9.9.9" "nope" none
      ⟨1, "Lunch", "Food", some 100, some (2024, 2, 5), "", 2,
        Ingestion.StagingStatus.APPROVED, "", "k1"⟩ rfl (by decide)).1,
   (Approval.resolved_row_approve_conflicts_reject_flips
      ⟨[⟨1, "Lunch", "Food", some 100, some (2024, 2, 5), "", 2,
        Ingestion.StagingStatus.APPROVED, "", "k1"⟩], [], 0, [], [], [], true⟩
      1 "admin" "admin@x" "9.9.9.9" "nope" none
      ⟨1, "Lunch", "Food", some 100, some (2024, 2, 5), "", 2,
        Ingestion.StagingStatus.APPROVED, "", "k1"⟩ rfl (by decide)).2.1⟩

/-- Claim C2, amended: a completed approve of a PENDING row creates exactly
    one ledger transaction and flips the row to APPROVED; approving it
    again fails with the conflict error and leaves the state unchanged, so
    an id listed twice in a bulk approval is promoted exactly once; but the
    promotion is not atomic per stable identifier: an approve call that
    fails between the ledger create and the staging-status update leaves
    the ledger transaction persisted while the row stays PENDING, and a
    retried approve then creates a second ledger transaction for the same
    stable identifier (see the counterexample). -/
theorem Approval.ledger_promotion_exactly_once_per_completed_approve
    (st : Approval.ApprovalState) (id : Nat) (u e ip : String)
    (cc : Option String) (stg : Approval.Staging)
    (hfind : Approval.findStaging st.stagings id = some stg)
    (hstat : stg.status = Ingestion.StagingStatus.PENDING)
    (hbank : st.hasBankAccount = true) :
    (Approval.approve st id u e ip cc).2 = Except.ok (Approval.promotedTx st stg u)
    ∧ (Approval.approve st id u e ip cc).1.ledger
        = st.ledger ++ [Approval.promotedTx st stg u]
    ∧ (∃ s' ∈ (Approval.approve st id u e ip cc).1.stagings,
        s'.id = stg.id ∧ s'.status = Ingestion.StagingStatus.APPROVED)
    ∧ Approval.approve (Approval.approve st id u e ip cc).1 id u e ip cc
        = ((Approval.approve st id u e ip cc).1, Except.error Approval.ApprovalErr.conflict)
    ∧ Approval.countLedgerFor ((Approval.bulkApprove st [id, id] u e ip).1.ledger) stg.syncUuid
        = Approval.countLedgerFor st.ledger stg.syncUuid + 1 := by
  have hid := Approval.findStaging_id st.stagings id stg hfind
  have hmem := Approval.findStaging_mem st.stagings id stg hfind
  -- the second-approve conflict, for an arbitrary corrected category
  have hgid : ∀ (c : String) (sx : Approval.Staging),
      (decide ((Approval.approvedUpdate id c sx).id = id)) = (decide (sx.id = id)) := by
    intro c sx
    unfold Approval.approvedUpdate
    by_cases h : sx.id = id
    · simp [h]
    · simp [h]
  have hfind2 : ∀ c : Option String,
      Approval.findStaging
        (st.stagings.map (Approval.approvedUpdate id (Approval.chosenCategory c stg))) id
      = some (Approval.approvedUpdate id (Approval.chosenCategory c stg) stg) := by
    intro c
    unfold Approval.findStaging
    rw [Approval.find?_map_pred_preserved _ _ _ (hgid (Approval.chosenCategory c stg))]
    unfold Approval.findStaging at hfind
    rw [hfind]
    rfl
  have hstat2 : ∀ c : Option String,
      ¬(Approval.approvedUpdate id (Approval.chosenCategory c stg) stg).status
        = Ingestion.StagingStatus.PENDING := by
    intro c
    unfold Approval.approvedUpdate
    rw [if_pos hid]
    intro h
    exact Ingestion.StagingStatus.noConfusion h
  have hconf : ∀ c : Option String,
      Approval.approve (Approval.approve st id u e ip c).1 id u e ip c
        = ((Approval.approve st id u e ip c).1, Except.error Approval.ApprovalErr.conflict) := by
    intro c
    have hap := Approval.approve_pending_eq st id u e ip c stg hfind hstat hbank
    rw [hap]
    exact Approval.approve_resolved_eq _ id u e ip c _ (hfind2 c) (hstat2 c)
  have hap := Approval.approve_pending_eq st id u e ip cc stg hfind hstat hbank
  refine ⟨by rw [hap], by rw [hap], ?_, hconf cc, ?_⟩
  · rw [hap]
    refine ⟨Approval.approvedUpdate id (Approval.chosenCategory cc stg) stg,
      List.mem_map_of_mem _ hmem, ?_, ?_⟩
    · unfold Approval.approvedUpdate
      rw [if_pos hid]
    · unfold Approval.approvedUpdate
      rw [if_pos hid]
  · have hap0 := Approval.approve_pending_eq st id u e ip none stg hfind hstat hbank
    have hbulk : (Approval.bulkApprove st [id, id] u e ip).1
        = (Approval.approve st id u e ip none).1 := by
      simp only [Approval.bulkApprove]
      rw [hconf none]
    rw [hbulk, hap0]
    unfold Approval.countLedgerFor
    rw [List.countP_append]
    have h1 : (Approval.promotedTx st stg u).sourceStableId = stg.syncUuid := rfl
    simp [h1]

/-- Claim C2, counterexample: an approve that fails between the ledger
    create and the status update (each store call is an independent await
    with no enclosing transaction), followed by a retried approve of the
    still-PENDING row, creates two ledger transactions for the one stable
    identifier. -/
theorem Approval.crash_retry_double_promotes :
    Approval.countLedgerFor
      ((Approval.approve
        (Approval.approveCrashBeforeUpdate
          ⟨[⟨1, "Lunch", "Food", some 100, some (2024, 2, 5), "", 2,
            Ingestion.StagingStatus.PENDING, "", "k1"⟩], [], 0, [], [], [], true⟩
          1 "admin").1
        1 "admin" "admin@x" "9.9.9.9" none).1.ledger) "k1" = 2 := by
  rfl

/-- Witness for the amended claim C2 at a concrete pending row. -/
theorem Approval.ledger_promotion_witness :
    (Approval.approve ⟨[⟨1, "Lunch", "Food", some 100, some (2024, 2, 5), "", 2,
        Ingestion.StagingStatus.PENDING, "", "k1"⟩], [], 0, [], [], [], true⟩
      1 "admin" "admin@x" "9.9.9.9" none).1.ledger
      = [Approval.promotedTx ⟨[⟨1, "Lunch", "Food", some 100, some (2024, 2, 5), "", 2,
          Ingestion.StagingStatus.PENDING, "", "k1"⟩], [], 0, [], [], [], true⟩
          ⟨1, "Lunch", "Food", some 100, some (2024, 2, 5), "", 2,
            Ingestion.StagingStatus.PENDING, "", "k1"⟩ "admin"]
    ∧ Approval.countLedgerFor
        ((Approval.bulkApprove ⟨[⟨1, "Lunch", "Food", some 100, some (2024, 2, 5), "", 2,
          Ingestion.StagingStatus.PENDING, "", "k1"⟩], [], 0, [], [], [], true⟩
          [1, 1] "admin" "admin@x" "9.9.9.9").1.ledger) "k1" = 1 :=
  ⟨(Approval.ledger_promotion_exactly_once_per_completed_approve
      ⟨[⟨1, "Lunch", "Food", some 100, some (2024, 2, 5), "", 2,
        Ingestion.StagingStatus.PENDING, "", "k1"⟩], [], 0, [], [], [], true⟩
      1 "admin" "admin@x" "9.9.9.9" none
      ⟨1, "Lunch", "Food", some 100, some (2024, 2, 5), "", 2,
        Ingestion.StagingStatus.PENDING, "", "k1"⟩ rfl rfl rfl).2.1,
   (Approval.ledger_promotion_exactly_once_per_completed_approve
      ⟨[⟨1, "Lunch", "Food", some 100, some (2024, 2, 5), "", 2,
        Ingestion.StagingStatus.PENDING, "", "k1"⟩], [], 0, [], [], [], true⟩
      1 "admin" "admin@x" "9.9.9.9" none
      ⟨1, "Lunch", "Food", some 100, some (2024, 2, 5), "", 2,
        Ingestion.StagingStatus.PENDING, "", "k1"⟩ rfl rfl rfl).2.2.2.2⟩

namespace Sweep

inductive RequestStatus
  | PENDING
  | APPROVED
  | REJECTED
  deriving Repr, DecidableEq

/-- EditRequest as read by the sweep, with the first external sheet of the
    department (the sweep reads externalSheets index zero, absent when the
    department has no sheet). -/
structure EditRequest where
  id : Nat
  month : String
  status : RequestStatus
  expiresAt : Option Nat
  sheetId : Option String
  departmentName : String
  requestedByEmail : String
  deriving Repr, DecidableEq

/-- Observable actions the triggers can take; a reconciliation can be
    started either by enqueueing a job for the single worker or by calling
    processSheet on the engine directly. -/
inductive Effect
  | lockMonth (sheetId month : String)
  | directProcessSheet (sheetId : String)
  | markRequestClosed (id : Nat)
  | sendEmail (recipient subject : String)
  | enqueueManualSync (sheetId : String)
  | enqueueCronSync (sheetId : String)
  deriving Repr, DecidableEq

/-- The query filter of handleExpiredRequests: APPROVED requests whose
    expiry is due. -/
def isExpired (now : Nat) (r : EditRequest) : Bool :=
  decide (r.status = RequestStatus.APPROVED) &&
    (match r.expiresAt with
     | some t => decide (t ≤ now)
     | none => false)

/-- Effects the sweep performs for one expired request: re-lock the month,
    call processSheet on the Reconciliation Engine directly (the source
    awaits ingestionService.processSheet, not a queue submission), close
    the request, and notify the admin. Requests without a sheet are
    skipped. -/
def sweepRequestEffects (r : EditRequest) : List Effect :=
  match r.sheetId with
  | none => []
  | some sid =>
    [Effect.lockMonth sid r.month,
     Effect.directProcessSheet sid,
     Effect.markRequestClosed r.id,
     Effect.sendEmail "admin@hcmj.org" (String.append "Window Closed: " r.month)]

/-- EditRequestService.handleExpiredRequests as its effect trace. -/
def handleExpiredRequests (now : Nat) (requests : List EditRequest) : List Effect :=
  ((requests.filter (isExpired now)).map sweepRequestEffects).flatten

/-- SheetIngestionService.queueAllActiveSheets: one queue submission per
    active sheet — the queued path used by the cron trigger and by manual
    sync requests. -/
def queueAllActiveSheets (isManual : Bool) (sheetIds : List String) : List Effect :=
  sheetIds.map (fun s =>
    if isManual then Effect.enqueueManualSync s else Effect.enqueueCronSync s)

def isEnqueue : Effect → Bool
  | Effect.enqueueManualSync _ => true
  | Effect.enqueueCronSync _ => true
  | _ => false

def isDirectRecon : Effect → Bool
  | Effect.directProcessSheet _ => true
  | _ => false

def hasSheet (r : EditRequest) : Bool := r.sheetId.isSome

theorem sweep_effects_no_enqueue (L : List EditRequest) :
    ((L.map sweepRequestEffects).flatten).countP isEnqueue = 0 := by
  induction L with
  | nil => rfl
  | cons r L ih =>
    rw [List.map_cons, List.flatten_cons, List.countP_append, ih]
    cases hr : r.sheetId with
    | none => simp [sweepRequestEffects, hr]
    | some sid => simp [sweepRequestEffects, hr, List.countP_cons, isEnqueue]

theorem sweep_effects_direct_count (L : List EditRequest) :
    ((L.map sweepRequestEffects).flatten).countP isDirectRecon
      = (L.filter hasSheet).length := by
  induction L with
  | nil => rfl
  | cons r L ih =>
    rw [List.map_cons, List.flatten_cons, List.countP_append, ih, List.filter_cons]
    cases hr : r.sheetId with
    | none =>
      have hh : hasSheet r = false := by simp [hasSheet, hr]
      simp [sweepRequestEffects, hr, hh]
    | some sid =>
      have hh : hasSheet r = true := by simp [hasSheet, hr]
      simp [sweepRequestEffects, hr, hh, List.countP_cons, isDirectRecon]
      omega

end Sweep

/-- Claim C8, amended: the unlock-expiry sweep, after re-locking an expired
    grant, does not submit a job to the Scheduler queue at all — it invokes
    the Reconciliation Engine directly, once per expired request that has a
    sheet; only the cron and manual triggers go through the queue (they
    enqueue one job per sheet and never call the engine directly). A
    sweep-triggered reconciliation therefore runs outside the single-worker
    queue and can overlap a queued reconciliation of the same sheet. -/
theorem Sweep.sweep_reconciles_directly_not_via_queue
    (now : Nat) (requests : List Sweep.EditRequest)
    (sheetIds : List String) (isManual : Bool) :
    (Sweep.handleExpiredRequests now requests).countP Sweep.isEnqueue = 0
    ∧ (Sweep.handleExpiredRequests now requests).countP Sweep.isDirectRecon
      = ((requests.filter (Sweep.isExpired now)).filter Sweep.hasSheet).length
    ∧ (Sweep.queueAllActiveSheets isManual sheetIds).countP Sweep.isDirectRecon = 0
    ∧ (Sweep.queueAllActiveSheets isManual sheetIds).countP Sweep.isEnqueue
      = sheetIds.length := by
  refine ⟨Sweep.sweep_effects_no_enqueue _, Sweep.sweep_effects_direct_count _, ?_, ?_⟩
  · induction sheetIds with
    | nil => rfl
    | cons s l ih =>
      cases isManual with
      | true =>
        simp only [Sweep.queueAllActiveSheets, List.map_cons, List.countP_cons] at ih ⊢
        simp [ih, Sweep.isDirectRecon]
      | false =>
        simp only [Sweep.queueAllActiveSheets, List.map_cons, List.countP_cons] at ih ⊢
        simp [ih, Sweep.isDirectRecon]
  · induction sheetIds with
    | nil => rfl
    | cons s l ih =>
      cases isManual with
      | true =>
        simp only [Sweep.queueAllActiveSheets, List.map_cons, List.countP_cons] at ih ⊢
        simp [ih, Sweep.isEnqueue]
      | false =>
        simp only [Sweep.queueAllActiveSheets, List.map_cons, List.countP_cons] at ih ⊢
        simp [ih, Sweep.isEnqueue]

/-- Claim C8, counterexample: one expired grant. The sweep emits a direct
    processSheet invocation for the sheet and no queue submission — the
    claim that the follow-up reconciliation is triggered by submitting a
    job to the queue rather than invoking the engine directly is false. -/
theorem Sweep.sweep_direct_call_counterexample :
    Sweep.handleExpiredRequests 100
      [⟨1, "Mar", Sweep.RequestStatus.APPROVED, some 50, some "s1", "Youth", "u@x"⟩]
      = [Sweep.Effect.lockMonth "s1" "Mar",
         Sweep.Effect.directProcessSheet "s1",
         Sweep.Effect.markRequestClosed 1,
         Sweep.Effect.sendEmail "admin@hcmj.org" "Window Closed: Mar"]
    ∧ (Sweep.handleExpiredRequests 100
      [⟨1, "Mar", Sweep.RequestStatus.APPROVED, some 50, some "s1", "Youth", "u@x"⟩]).countP
        Sweep.isEnqueue = 0 :=
  ⟨rfl, rfl⟩

namespace Anomaly

inductive Severity
  | LOW
  | MEDIUM
  | HIGH
  deriving Repr, DecidableEq

structure AnomalyRec where
  id : Nat
  stagingTransactionId : Nat
  type : String
  severity : Severity
  description : String
  isIgnored : Bool
  ignoredByEmail : String
  deriving Repr, DecidableEq

structure AnomalyStore where
  recs : List AnomalyRec
  nextId : Nat
  deriving Repr, DecidableEq

def emptyStore : AnomalyStore := ⟨[], 0⟩

/-- AnomalyEngineService.createAnomaly: findFirst on the row id and the
    anomaly type — the filter does not mention isIgnored, so an ignored
    record also blocks — and create only when absent. -/
def createAnomaly (st : AnomalyStore) (txId : Nat) (ty : String)
    (sev : Severity) (descr : String) : AnomalyStore :=
  match st.recs.find? (fun a => decide (a.stagingTransactionId = txId ∧ a.type = ty)) with
  | some _ => st
  | none =>
    { recs := st.recs ++ [⟨st.nextId, txId, ty, sev, descr, false, ""⟩],
      nextId := st.nextId + 1 }

/-- AnomalyEngineService.ignoreAnomaly: set the ignored flag by anomaly id;
    the record stays in the table. -/
def ignoreAnomaly (st : AnomalyStore) (id : Nat) (email : String) : AnomalyStore :=
  { st with recs := st.recs.map (fun a =>
      if a.id = id then { a with isIgnored := true, ignoredByEmail := email } else a) }

/-- Operations reaching the anomaly table over a lifetime: every rule of
    scanTransaction (duplicate, spike, keyword, currency, weekend date)
    and checkVelocity funnels its insert through createAnomaly, and the
    operator surface exposes ignoreAnomaly; an arbitrary sequence of these
    covers every scan history the engine can produce. -/
inductive EngineOp
  | create (txId : Nat) (ty : String) (sev : Severity) (descr : String)
  | ignore (id : Nat) (email : String)

def applyOp (st : AnomalyStore) : EngineOp → AnomalyStore
  | EngineOp.create txId ty sev descr => createAnomaly st txId ty sev descr
  | EngineOp.ignore id email => ignoreAnomaly st id email

def applyOps (st : AnomalyStore) : List EngineOp → AnomalyStore
  | [] => st
  | op :: rest => applyOps (applyOp st op) rest

/-- Number of anomaly records, ignored or not, for one row and type. -/
def countType (st : AnomalyStore) (txId : Nat) (ty : String) : Nat :=
  st.recs.countP (fun a => decide (a.stagingTransactionId = txId ∧ a.type = ty))

theorem createAnomaly_noop_of_exists (st : AnomalyStore) (txId : Nat) (ty : String)
    (sev : Severity) (descr : String) (h : 1 ≤ countType st txId ty) :
    createAnomaly st txId ty sev descr = st := by
  unfold createAnomaly
  cases hf : st.recs.find? (fun a => decide (a.stagingTransactionId = txId ∧ a.type = ty)) with
  | some a => rfl
  | none =>
    exfalso
    unfold countType at h
    have hz : st.recs.countP
        (fun a => decide (a.stagingTransactionId = txId ∧ a.type = ty)) = 0 := by
      rw [List.countP_eq_zero]
      intro a ha
      simpa using List.find?_eq_none.mp hf a ha
    omega

theorem countType_applyOp_le (st : AnomalyStore) (op : EngineOp) (txId : Nat) (ty : String)
    (h : countType st txId ty ≤ 1) : countType (applyOp st op) txId ty ≤ 1 := by
  cases op with
  | create t y sev d =>
    show countType (createAnomaly st t y sev d) txId ty ≤ 1
    unfold createAnomaly
    cases hf : st.recs.find? (fun a => decide (a.stagingTransactionId = t ∧ a.type = y)) with
    | some a => exact h
    | none =>
      unfold countType at h ⊢
      rw [List.countP_append]
      by_cases hsame : t = txId ∧ y = ty
      · obtain ⟨h1, h2⟩ := hsame
        subst h1
        subst h2
        have hz : st.recs.countP
            (fun a => decide (a.stagingTransactionId = t ∧ a.type = y)) = 0 := by
          rw [List.countP_eq_zero]
          intro a ha
          simpa using List.find?_eq_none.mp hf a ha
        rw [hz]
        simp
      · have hnew : (decide
            ((⟨st.nextId, t, y, sev, d, false, ""⟩ : AnomalyRec).stagingTransactionId = txId
              ∧ (⟨st.nextId, t, y, sev, d, false, ""⟩ : AnomalyRec).type = ty)) = false := by
          apply decide_eq_false
          intro hcon
          exact hsame hcon
        simp only [List.countP_cons, List.countP_nil, hnew, Bool.false_eq_true, if_false]
        omega
  | ignore id email =>
    show countType (ignoreAnomaly st id email) txId ty ≤ 1
    unfold ignoreAnomaly countType
    rw [Ingestion.countP_map_pred_preserved]
    · exact h
    · intro a
      by_cases hia : a.id = id
      · simp [hia]
      · simp [hia]

theorem countType_applyOps_le (ops : List EngineOp) (st : AnomalyStore)
    (txId : Nat) (ty : String) (h : countType st txId ty ≤ 1) :
    countType (applyOps st ops) txId ty ≤ 1 := by
  induction ops generalizing st with
  | nil => exact h
  | cons op rest ih => exact ih _ (countType_applyOp_le st op txId ty h)

end Anomaly

/-- Claim C10: for every staged row and anomaly type, at most one anomaly
    record ever exists over any lifetime of engine operations starting
    from an empty table; and because the existence check of createAnomaly
    ignores the isIgnored flag, once any record for the row and type
    exists — ignored or not — a later create of that type for that row is
    a no-op. -/
theorem Anomaly.at_most_one_anomaly_per_row_and_type
    (ops : List Anomaly.EngineOp) (txId : Nat) (ty : String)
    (st : Anomaly.AnomalyStore) (sev : Anomaly.Severity) (descr : String)
    (hex : 1 ≤ Anomaly.countType st txId ty) :
    Anomaly.countType (Anomaly.applyOps Anomaly.emptyStore ops) txId ty ≤ 1
    ∧ Anomaly.createAnomaly st txId ty sev descr = st :=
  ⟨Anomaly.countType_applyOps_le ops Anomaly.emptyStore txId ty (Nat.zero_le 1),
   Anomaly.createAnomaly_noop_of_exists st txId ty sev descr hex⟩

/-- Witness for claim C10: a create, an ignore of the created record, and
    a second create of the same type leave exactly one record, and the
    create against a store holding only an ignored record is a no-op. -/
theorem Anomaly.at_most_one_anomaly_witness :
    Anomaly.countType
      (Anomaly.applyOps Anomaly.emptyStore
        [Anomaly.EngineOp.create 1 "SPIKE" Anomaly.Severity.HIGH "big",
         Anomaly.EngineOp.ignore 0 "op@x",
         Anomaly.EngineOp.create 1 "SPIKE" Anomaly.Severity.HIGH "again"]) 1 "SPIKE" ≤ 1
    ∧ Anomaly.createAnomaly
        ⟨[⟨0, 1, "SPIKE", Anomaly.Severity.HIGH, "big", true, "op@x"⟩], 1⟩
        1 "SPIKE" Anomaly.Severity.HIGH "again"
      = ⟨[⟨0, 1, "SPIKE", Anomaly.Severity.HIGH, "big", true, "op@x"⟩], 1⟩ :=
  ⟨(Anomaly.at_most_one_anomaly_per_row_and_type
      [Anomaly.EngineOp.create 1 "SPIKE" Anomaly.Severity.HIGH "big",
       Anomaly.EngineOp.ignore 0 "op@x",
       Anomaly.EngineOp.create 1 "SPIKE" Anomaly.Severity.HIGH "again"] 1 "SPIKE"
      ⟨[⟨0, 1, "SPIKE", Anomaly.Severity.HIGH, "big", true, "op@x"⟩], 1⟩
      Anomaly.Severity.HIGH "again" (by decide)).1,
   (Anomaly.at_most_one_anomaly_per_row_and_type
      [Anomaly.EngineOp.create 1 "SPIKE" Anomaly.Severity.HIGH "big",
       Anomaly.EngineOp.ignore 0 "op@x",
       Anomaly.EngineOp.create 1 "SPIKE" Anomaly.Severity.HIGH "again"] 1 "SPIKE"
      ⟨[⟨0, 1, "SPIKE", Anomaly.Severity.HIGH, "big", true, "op@x"⟩], 1⟩
      Anomaly.Severity.HIGH "again" (by decide)).2⟩
